import Mathlib

/-!
# Verification of the fletchck check engine

Shallow embedding of `src/fletchck/check.py` and `src/fletchck/util.py`:
the probe state machine (`BaseCheck.update`), the sequence probe, the
remote probe, `loadCheck`/`flatten`, the site `updateCheck` operation,
the site log handler and the trigger text codec.
-/

namespace Fletchck

/-- Python values stored in `failState`: either a bool or a string
(`check.py` only ever assigns bools or strings there).  Python equality
between a bool and a str is always `False`, matching the derived
`DecidableEq`. -/
inductive FailVal where
  | b (v : Bool)
  | s (v : String)
deriving DecidableEq, Repr

/-- Python truthiness of a `FailVal`: `True` is truthy, a string is
truthy iff non-empty. -/
def FailVal.truthy : FailVal → Bool
  | .b v => v
  | .s v => v ≠ ""

/-- An interval trigger map (`util.py` `_INTERVALKEYS`): the six
integer fields of `_INTTRIGKEYS` hold ints, the date/zone fields hold
strings (in this code base triggers come from JSON or from
`text2Trigger`, so only ints and strings occur). -/
structure IntervalTrigger where
  weeks : Option Int := none
  days : Option Int := none
  hours : Option Int := none
  minutes : Option Int := none
  seconds : Option Int := none
  start_date : Option String := none
  end_date : Option String := none
  timezone : Option String := none
  jitter : Option Int := none
deriving DecidableEq, Repr

/-- A cron field value: the scheduler's cron constructor accepts both
ints and expression strings for the calendar fields. -/
inductive CronVal where
  | i (n : Int)
  | s (v : String)
deriving DecidableEq, Repr

/-- A cron trigger map (`util.py` `_CRONKEYS`).  `jitter` is in
`_INTTRIGKEYS`, so it is an int; the date/zone fields are strings; the
eight calendar fields can hold ints or strings. -/
structure CronTrigger where
  year : Option CronVal := none
  month : Option CronVal := none
  day : Option CronVal := none
  week : Option CronVal := none
  day_of_week : Option CronVal := none
  hour : Option CronVal := none
  minute : Option CronVal := none
  second : Option CronVal := none
  start_date : Option String := none
  end_date : Option String := none
  timezone : Option String := none
  jitter : Option Int := none
deriving DecidableEq, Repr

/-- A structured trigger: `{'interval': {...}}` or `{'cron': {...}}`. -/
inductive Trigger where
  | interval (i : IntervalTrigger)
  | cron (c : CronTrigger)
deriving DecidableEq, Repr

/-- The type-specific `options` mapping, restricted to the keys the
verified operations read (`timeout` for the remote probe, `checks` for
sequence membership).  `defaults.getOpt` (the `defaults` module is not
under `src/`; modelled from its call sites and the spec: return
`options[key]` when present with the required type, else the default)
becomes a typed field access with `Option.getD`. -/
structure Options where
  timeout : Option Int := none
  checks : Option (List String) := none
deriving DecidableEq, Repr

/-- Runtime and configuration state of a check, the attributes set in
`BaseCheck.__init__` (`check.py` lines 136-161) that the verified
operations read or write.  `depends` and `actions` are not embedded
here: they hold references to other mutable objects, so `update` below
takes the insertion-ordered list of dependency names with their current
`failState` as an argument.  `threshold`, `retries` and `failCount` are
non-negative ints everywhere in the code (`loadCheck` enforces it;
remote data replicates another instance's state), modelled as `Nat`. -/
structure CheckState where
  checkType : Option String := none
  subType : Option String := none
  trigger : Option Trigger := none
  threshold : Nat := 1
  retries : Nat := 1
  priority : Int := 0
  failAction : Bool := true
  passAction : Bool := true
  publish : Option String := none
  options : Options := {}
  failState : FailVal := .b true
  softFail : Option String := none
  failCount : Nat := 0
  log : List String := []
  oldLog : Option (List String) := none
  lastFail : Option String := none
  lastPass : Option String := none
  lastCheck : Option String := none
  lastUpdate : Option String := none
deriving DecidableEq, Repr

/-- First dependency (in insertion order) whose `failState` is truthy:
the loop at `check.py` lines 191-197. -/
def firstFailingDep : List (String × FailVal) → Option String
  | [] => none
  | (n, f) :: rest => if f.truthy then some n else firstFailingDep rest

/-- The body of the retry loop of `BaseCheck.update` (`check.py` lines
201-209): `count` is the 1-based number of the current attempt,
`remaining` the number of attempts still allowed (initially `retries`).
The loop continues while the attempt failed and `count < retries`,
i.e. while more attempts remain. -/
def retryGo (attempts : Nat → FailVal) : Nat → Nat → FailVal
  | _, 0 => .b false
  | count, remaining + 1 =>
      let curFail := attempts count
      if curFail.truthy ∧ 0 < remaining then
        retryGo attempts (count + 1) remaining
      else curFail

/-- The retry loop of `BaseCheck.update`: run `_runCheck` up to
`retries` times, stopping at the first falsy result; the value of the
last attempt performed is `curFail`.  `attempts k` is the result of the
`k`-th call to `_runCheck` (counting from 1).  With `retries = 0` the
Python loop body would never run and `curFail` would be unbound
(`loadCheck` keeps `retries ≥ 1`); that unreachable case is modelled as
a pass. -/
def retryLoop (retries : Nat) (attempts : Nat → FailVal) : FailVal :=
  retryGo attempts 1 retries

/-- Result of one call to `BaseCheck.update`: the new state, the value
returned by `update`, and whether `notify()` was called. -/
structure UpdateResult where
  state : CheckState
  ret : FailVal
  notified : Bool
deriving DecidableEq, Repr

/-- `BaseCheck.update` (`check.py` lines 186-236).  `now` stands for
`timeString(self.timezone)`; `deps` is the insertion-ordered list of
`(name, failState)` of the checks in `self.depends`; `attempts` gives
the successive `_runCheck` results (a list of log lines appended by
`_runCheck` itself is abstracted: `runLog` is what `self.log` holds
after the retry loop). -/
def update (c : CheckState) (deps : List (String × FailVal)) (now : String)
    (attempts : Nat → FailVal) (runLog : List String) : UpdateResult :=
  let c := { c with lastCheck := some now, softFail := none }
  match firstFailingDep deps with
  | some d =>
      -- soft-fail early return: `return True` at check.py line 197
      { state := { c with softFail := some d,
                          log := ["SOFTFAIL (depends=" ++ d ++ ")"] },
        ret := .b true, notified := false }
  | none =>
      let c := { c with oldLog := some c.log, log := runLog }
      let curFail := retryLoop c.retries attempts
      if curFail.truthy then
        let c := { c with failCount := c.failCount + 1 }
        if c.threshold ≤ c.failCount ∧ curFail ≠ c.failState then
          let c := { c with failState := curFail, lastFail := some now }
          { state := c, ret := c.failState, notified := c.failAction }
        else
          { state := c, ret := c.failState, notified := false }
      else
        let c := { c with failCount := 0 }
        if c.failState.truthy then
          let c := { c with failState := curFail, lastPass := some now }
          { state := c, ret := c.failState, notified := c.passAction }
        else
          { state := c, ret := c.failState, notified := false }

/-- `LogHandler.emit` (`util.py` lines 101-106): append the formatted
record to the site log, and when the log then exceeds 200 entries
delete the first 10. -/
def emit (siteLog : List String) (msg : String) : List String :=
  let l := siteLog ++ [msg]
  if 200 < l.length then l.drop 10 else l

/-- The registry filled at the bottom of `check.py` (lines 784-794). -/
def CHECK_TYPES : List String :=
  ["cert", "smtp", "submit", "imap", "https", "ssh", "sequence", "ups",
   "upstest", "remote", "disk"]

/-- The `data` member of a flat check config (`check.py` lines 98-127).
A field is `none` when the key is absent, holds `None`, or holds a value
of the wrong type — all of which `loadCheck` skips identically. -/
structure ConfigData where
  failState : Option FailVal := none
  failCount : Option Int := none
  threshold : Option Int := none
  lastFail : Option String := none
  lastPass : Option String := none
  lastCheck : Option String := none
  lastUpdate : Option String := none
  softFail : Option String := none
  log : Option (List String) := none
deriving DecidableEq, Repr

/-- A flat check config as consumed by `loadCheck` and produced by
`flatten`.  As in `ConfigData`, `none` covers absent keys, `None`
values and wrongly-typed values alike. -/
structure Config where
  type : Option String := none
  subType : Option String := none
  trigger : Option Trigger := none
  threshold : Option Int := none
  retries : Option Int := none
  priority : Option Int := none
  failAction : Option Bool := none
  passAction : Option Bool := none
  publish : Option String := none
  options : Option Options := none
  actions : List String := []
  depends : List String := []
  data : Option ConfigData := none
deriving DecidableEq, Repr

/-- `loadCheck` (`check.py` lines 70-130): build a check from a flat
config.  Each `if key in config and isinstance(...)` overwrite is
`cfgVal <|> current` (set when present, else keep); the guarded ones
keep the explicit condition.  The `name` argument and the timezone
handling (line 96) only affect fields outside the verified claims and
are not modelled. -/
def loadCheck (config : Config) : Option CheckState :=
  match config.type with
  | none => none
  | some ty =>
    if ty ∈ CHECK_TYPES then
      let ret : CheckState :=
        { checkType := some ty, options := config.options.getD {} }
      let ret := { ret with trigger := config.trigger <|> ret.trigger }
      let ret :=
        match config.threshold with
        | some t => if 0 < t then { ret with threshold := t.toNat } else ret
        | none => ret
      let ret :=
        match config.retries with
        | some r => if 0 < r then { ret with retries := r.toNat } else ret
        | none => ret
      let ret := { ret with subType := config.subType <|> ret.subType }
      let ret :=
        match config.priority with
        | some p => { ret with priority := p }
        | none => ret
      let ret :=
        match config.failAction with
        | some b => { ret with failAction := b }
        | none => ret
      let ret :=
        match config.passAction with
        | some b => { ret with passAction := b }
        | none => ret
      let ret := { ret with publish := config.publish <|> ret.publish }
      let ret :=
        match config.data with
        | none => ret
        | some d =>
          let ret :=
            match d.failState with
            | some v => { ret with failState := v }
            | none => ret
          let ret :=
            match d.failCount with
            | some v => if 0 ≤ v then { ret with failCount := v.toNat }
                        else ret
            | none => ret
          let ret :=
            match d.threshold with
            | some v => if 0 ≤ v then { ret with threshold := v.toNat }
                        else ret
            | none => ret
          let ret := { ret with lastFail := d.lastFail <|> ret.lastFail }
          let ret := { ret with lastPass := d.lastPass <|> ret.lastPass }
          let ret := { ret with lastCheck := d.lastCheck <|> ret.lastCheck }
          let ret :=
            { ret with lastUpdate := d.lastUpdate <|> ret.lastUpdate }
          let ret := { ret with softFail := d.softFail <|> ret.softFail }
          let ret :=
            match d.log with
            | some l => { ret with log := l }
            | none => ret
          ret
      some ret
    else none

/-- `BaseCheck.flatten` (`check.py` lines 291-318).  `actList` and
`depList` are the key lists of the `actions` and `depends` dicts, which
live outside `CheckState`. -/
def flatten (c : CheckState) (actList depList : List String) : Config :=
  { type := c.checkType
    subType := c.subType
    trigger := c.trigger
    threshold := some (c.threshold : Int)
    retries := some (c.retries : Int)
    priority := some c.priority
    failAction := some c.failAction
    passAction := some c.passAction
    publish := c.publish
    options := some c.options
    actions := actList
    depends := depList
    data := some
      { failState := some c.failState
        failCount := some (c.failCount : Int)
        log := some c.log
        softFail := c.softFail
        lastCheck := c.lastCheck
        lastUpdate := c.lastUpdate
        lastFail := c.lastFail
        lastPass := c.lastPass } }

/-- The remote data object consumed by `remoteCheck.remoteUpdate`
(`check.py` lines 635-678): a replica of another instance's `msgObj`
data member. -/
structure RemoteData where
  failState : FailVal
  failCount : Nat
  threshold : Nat
  log : List String
  softFail : Option String
  lastCheck : Option String
  lastFail : Option String
  lastPass : Option String
deriving DecidableEq, Repr

/-- `remoteCheck.remoteUpdate` (`check.py` lines 635-678): decide
notification from the incoming data against the current state, stamp
`lastUpdate` with the local time `now` unless `data['lastCheck']` is a
non-empty string that parses as a timestamp (`parseOK`), then overwrite
the state from the remote data.  Returns the new state and whether
`notify()` was called. -/
def remoteUpdate (c : CheckState) (checkType : String) (d : RemoteData)
    (now : String) (parseOK : Bool) : CheckState × Bool :=
  let doNotify :=
    if d.failState.truthy then
      if d.threshold ≤ d.failCount ∧ d.failState ≠ c.failState then
        c.failAction
      else false
    else
      if c.failState.truthy then c.passAction else false
  let lastUpdate :=
    match d.lastCheck with
    | some lc => if lc ≠ "" ∧ parseOK then lc else now
    | none => now
  ({ c with subType := some checkType
            failState := d.failState
            lastUpdate := some lastUpdate
            failCount := d.failCount
            threshold := d.threshold
            log := d.log
            softFail := d.softFail
            lastCheck := d.lastCheck
            lastFail := d.lastFail
            lastPass := d.lastPass }, doNotify)

/-- `remoteCheck._runCheck` (`check.py` lines 614-633).  `et` stands
for the elapsed seconds between the wall clock and the parsed
`lastUpdate` (the `%d` format prints its integer part); it is only
consulted when `options['timeout']` is truthy (set and non-zero) and
`lastUpdate` is truthy (set and non-empty).  Returns the state (the
probe's `log` may change) and the `failState` value returned to the
retry loop. -/
def remoteRunCheck (c : CheckState) (et : Int) : CheckState × FailVal :=
  match c.options.timeout, c.lastUpdate with
  | some t, some lu =>
      if t ≠ 0 ∧ lu ≠ "" then
        if t < et then
          ({ c with log := c.log ++
              ["Timeout waiting for update " ++ toString et ++
                " sec (" ++ lu ++ ")"] }, .b true)
        else
          match c.oldLog with
          | some ol => if ol ≠ [] then ({ c with log := ol }, c.failState)
                       else (c, c.failState)
          | none => (c, c.failState)
      else (c, c.failState)
  | _, _ => (c, c.failState)

/-- A sub-probe of a sequence check as `sequenceCheck._runCheck` sees
it: its name (the key in the `self.checks` dict), its `priority`
attribute, and the value its `update()` call returns.  The sub-probes
run through their own full state machine; only the returned value is
relevant to the sequence result. -/
structure SubProbe where
  name : String
  priority : Int
  outcome : FailVal
deriving DecidableEq, Repr

/-- Python tuple comparison on the `(priority, count, name)` triples
built by `sequenceCheck._runCheck` (`check.py` lines 752-757):
lexicographic on the three components. -/
def tripleLE (a b : Int × Nat × String) : Prop :=
  a.1 < b.1 ∨ (a.1 = b.1 ∧
    (a.2.1 < b.2.1 ∨ (a.2.1 = b.2.1 ∧ a.2.2 ≤ b.2.2)))

instance : DecidableRel tripleLE := fun a b =>
  decidable_of_iff (a.1 < b.1 ∨ (a.1 = b.1 ∧
    (a.2.1 < b.2.1 ∨ (a.2.1 = b.2.1 ∧ a.2.2 ≤ b.2.2)))) Iff.rfl

/-- `sequenceCheck._runCheck` (`check.py` lines 750-781): build
`aux = [(priority, count, name), ...]` over the sub-probes in insertion
order, sort it (the `count` components are pairwise distinct, so the
unique sorted permutation produced by any sorting algorithm equals the
result of Python's `aux.sort()`), run each sub-probe in sorted order
collecting the failing names, and return the failing names, in sorted
order, joined by commas.  Membership in the `failChecks` set is modelled
by the `any` lookup over the sub-probe list. -/
def seqRunCheck (subs : List SubProbe) : String :=
  let aux := subs.enum.map fun p => (p.2.priority, p.1, p.2.name)
  let sortedChecks := (aux.insertionSort tripleLE).map fun t => t.2.2
  let failing := fun n => subs.any fun s => s.name == n && s.outcome.truthy
  String.intercalate "," (sortedChecks.filter failing)

/-- Ordering of the claim's words: priority ascending, insertion order
(the `Nat` index) ascending. -/
def prioInsertionLE (a b : Nat × SubProbe) : Prop :=
  a.2.priority < b.2.priority ∨ (a.2.priority = b.2.priority ∧ a.1 ≤ b.1)

instance : DecidableRel prioInsertionLE := fun a b =>
  decidable_of_iff (a.2.priority < b.2.priority ∨
    (a.2.priority = b.2.priority ∧ a.1 ≤ b.1)) Iff.rfl

/-- The sub-probes ordered as the claim states: by priority ascending,
then insertion order ascending. -/
def seqSpecOrder (subs : List SubProbe) : List (Nat × SubProbe) :=
  subs.enum.insertionSort prioInsertionLE

/-- The names of exactly the failing sub-probes, in the claim's order. -/
def seqSpecFailingNames (subs : List SubProbe) : List String :=
  ((seqSpecOrder subs).filter fun p => p.2.outcome.truthy).map
    fun p => p.2.name

instance : IsTotal (Int × Nat × String) tripleLE where
  total a b := by
    unfold tripleLE
    rcases lt_trichotomy a.1 b.1 with h | h | h
    · exact Or.inl (Or.inl h)
    · rcases lt_trichotomy a.2.1 b.2.1 with h2 | h2 | h2
      · exact Or.inl (Or.inr ⟨h, Or.inl h2⟩)
      · rcases le_total a.2.2 b.2.2 with h3 | h3
        · exact Or.inl (Or.inr ⟨h, Or.inr ⟨h2, h3⟩⟩)
        · exact Or.inr (Or.inr ⟨h.symm, Or.inr ⟨h2.symm, h3⟩⟩)
      · exact Or.inr (Or.inr ⟨h.symm, Or.inl h2⟩)
    · exact Or.inr (Or.inl h)

instance : IsTrans (Int × Nat × String) tripleLE where
  trans a b c hab hbc := by
    unfold tripleLE at *
    rcases hab with h1 | ⟨e1, h1⟩
    · rcases hbc with h2 | ⟨e2, h2⟩
      · exact Or.inl (h1.trans h2)
      · exact Or.inl (e2 ▸ h1)
    · rcases hbc with h2 | ⟨e2, h2⟩
      · exact Or.inl (lt_of_eq_of_lt e1 h2)
      · refine Or.inr ⟨e1.trans e2, ?_⟩
        rcases h1 with h1 | ⟨f1, h1⟩
        · rcases h2 with h2 | ⟨f2, h2⟩
          · exact Or.inl (h1.trans h2)
          · exact Or.inl (f2 ▸ h1)
        · rcases h2 with h2 | ⟨f2, h2⟩
          · exact Or.inl (lt_of_eq_of_lt f1 h2)
          · exact Or.inr ⟨f1.trans f2, h1.trans h2⟩

instance : IsAntisymm (Int × Nat × String) tripleLE where
  antisymm a b hab hba := by
    obtain ⟨a1, a2, a3⟩ := a
    obtain ⟨b1, b2, b3⟩ := b
    unfold tripleLE at hab hba
    simp only at hab hba
    have e1 : a1 = b1 := by
      rcases hab with h | ⟨h, _⟩ <;> rcases hba with h' | ⟨h', _⟩ <;> omega
    subst e1
    have e2 : a2 = b2 := by
      rcases hab with h | ⟨-, h | ⟨h, -⟩⟩ <;>
        rcases hba with h' | ⟨-, h' | ⟨h', -⟩⟩ <;> omega
    subst e2
    have e3 : a3 = b3 := by
      rcases hab with h | ⟨-, h | ⟨-, h⟩⟩ <;>
        rcases hba with h' | ⟨-, h' | ⟨-, h'⟩⟩ <;>
        first
          | omega
          | exact le_antisymm h h'
    subst e3
    rfl

instance : IsTotal (Nat × SubProbe) prioInsertionLE where
  total a b := by
    unfold prioInsertionLE
    rcases lt_trichotomy a.2.priority b.2.priority with h | h | h
    · exact Or.inl (Or.inl h)
    · rcases le_total a.1 b.1 with h2 | h2
      · exact Or.inl (Or.inr ⟨h, h2⟩)
      · exact Or.inr (Or.inr ⟨h.symm, h2⟩)
    · exact Or.inr (Or.inl h)

instance : IsTrans (Nat × SubProbe) prioInsertionLE where
  trans a b c hab hbc := by
    unfold prioInsertionLE at *
    rcases hab with h1 | ⟨e1, h1⟩ <;> rcases hbc with h2 | ⟨e2, h2⟩
    · exact Or.inl (h1.trans h2)
    · exact Or.inl (e2 ▸ h1)
    · exact Or.inl (lt_of_eq_of_lt e1 h2)
    · exact Or.inr ⟨e1.trans e2, h1.trans h2⟩

/-- The packing function `f` used by `sequenceCheck._runCheck` to build
the Python sort keys. -/
def seqKey (p : Nat × SubProbe) : Int × Nat × String :=
  (p.2.priority, p.1, p.2.name)

theorem seqSpecOrder_perm (subs : List SubProbe) :
    List.Perm (seqSpecOrder subs) subs.enum :=
  List.perm_insertionSort _ _

theorem seqSpecOrder_fst_nodup (subs : List SubProbe) :
    ((seqSpecOrder subs).map Prod.fst).Nodup := by
  have h := (seqSpecOrder_perm subs).map Prod.fst
  refine h.nodup_iff.mpr ?_
  rw [List.enum_eq_enumFrom, List.enumFrom_map_fst]
  exact List.nodup_range' _ _

theorem seqSpecOrder_sorted_triple (subs : List SubProbe) :
    ((seqSpecOrder subs).map seqKey).Pairwise tripleLE := by
  have hs : (seqSpecOrder subs).Pairwise prioInsertionLE :=
    List.sorted_insertionSort _ _
  have hne : (seqSpecOrder subs).Pairwise (fun a b => a.1 ≠ b.1) := by
    have h := seqSpecOrder_fst_nodup subs
    rw [List.Nodup, List.pairwise_map] at h
    exact h
  rw [List.pairwise_map]
  refine (hs.and hne).imp ?_
  rintro a b ⟨hab, hne'⟩
  unfold prioInsertionLE at hab
  simp only [tripleLE, seqKey]
  rcases hab with h | ⟨e, h⟩
  · exact Or.inl h
  · exact Or.inr ⟨e, Or.inl (by omega)⟩

theorem seq_sorted_eq (subs : List SubProbe) :
    (subs.enum.map seqKey).insertionSort tripleLE =
      (seqSpecOrder subs).map seqKey := by
  refine List.eq_of_perm_of_sorted (r := tripleLE) ?_ ?_ ?_
  · exact (List.perm_insertionSort _ _).trans
      ((seqSpecOrder_perm subs).map seqKey).symm
  · exact List.sorted_insertionSort _ _
  · exact seqSpecOrder_sorted_triple subs

/-- With pairwise-distinct sub-probe names (the `self.checks` dict
guarantees this), membership of a name in the `failChecks` set is the
failure of the named sub-probe itself. -/
theorem any_name_eq {subs : List SubProbe}
    (hnodup : (subs.map SubProbe.name).Nodup) {s : SubProbe}
    (hs : s ∈ subs) :
    (subs.any fun t => t.name == s.name && t.outcome.truthy) =
      s.outcome.truthy := by
  induction subs with
  | nil => cases hs
  | cons h tl ih =>
    simp only [List.map_cons, List.nodup_cons] at hnodup
    rcases List.mem_cons.mp hs with rfl | hs'
    · simp only [List.any_cons, beq_self_eq_true, Bool.true_and]
      have htl : (tl.any fun t => t.name == s.name && t.outcome.truthy)
          = false := by
        rw [List.any_eq_false]
        intro t ht
        simp only [Bool.and_eq_true, beq_iff_eq, not_and]
        intro hname
        exact absurd (hname ▸ List.mem_map_of_mem SubProbe.name ht)
          hnodup.1
      rw [htl, Bool.or_false]
    · have hhead : (h.name == s.name) = false := by
        refine beq_eq_false_iff_ne.mpr fun he => hnodup.1 ?_
        exact he ▸ List.mem_map_of_mem SubProbe.name hs'
      simp only [List.any_cons, hhead, Bool.false_and, Bool.false_or]
      exact ih hnodup.2 hs'

theorem filter_failing_eq {subs : List SubProbe}
    (hnodup : (subs.map SubProbe.name).Nodup) (l : List (Nat × SubProbe))
    (hl : ∀ p ∈ l, p.2 ∈ subs) :
    ((l.map fun p => p.2.name).filter
        fun n => subs.any fun s => s.name == n && s.outcome.truthy) =
      (l.filter fun p => p.2.outcome.truthy).map fun p => p.2.name := by
  induction l with
  | nil => rfl
  | cons p tl ih =>
    have hp : p.2 ∈ subs := hl p (List.mem_cons_self _ _)
    have htl : ∀ q ∈ tl, q.2 ∈ subs := fun q hq =>
      hl q (List.mem_cons_of_mem _ hq)
    simp only [List.map_cons, List.filter_cons]
    rw [any_name_eq hnodup hp]
    cases hcase : p.2.outcome.truthy
    · simpa using ih htl
    · simpa using ih htl

theorem intercalate_go_length (l : List String) (acc s : String) :
    acc.length ≤ (String.intercalate.go acc s l).length := by
  induction l generalizing acc with
  | nil => exact le_rfl
  | cons a as ih =>
    calc acc.length ≤ (acc ++ s ++ a).length := by
          simp only [String.length_append]
          omega
      _ ≤ _ := ih (acc ++ s ++ a)

theorem intercalate_ne_empty (a : String) (l : List String) (ha : a ≠ "") :
    String.intercalate "," (a :: l) ≠ "" := by
  have h1 : 0 < a.length := by
    rcases Nat.eq_zero_or_pos a.length with h | h
    · exact absurd (String.ext (List.length_eq_zero.mp h)) ha
    · exact h
  have h2 : a.length ≤ (String.intercalate "," (a :: l)).length :=
    intercalate_go_length l a ","
  intro h
  rw [h] at h2
  simp at h2
  omega

/-- C2 fails on the code as stated: a single failing sub-probe whose
name is the empty string yields `','.join([''])`, which is the empty
string although a sub-probe failed, violating the claimed
"empty string if and only if no sub-probe fails". -/
theorem C2_counterexample :
    seqRunCheck [⟨"", 0, .b true⟩] = "" ∧
      ¬(∀ s ∈ [(⟨"", 0, .b true⟩ : SubProbe)], s.outcome.truthy = false) := by
  constructor
  · rfl
  · decide

/-- C2 amended: with pairwise-distinct sub-probe names (guaranteed by
the `self.checks` dict) and no empty sub-probe name,
`sequenceCheck._runCheck` returns the comma-joined names of exactly the
sub-probes whose `update()` returned a truthy value, ordered by
(priority ascending, insertion order ascending), and returns the empty
string if and only if no sub-probe fails. -/
theorem C2_sequence_csv (subs : List SubProbe)
    (hnodup : (subs.map SubProbe.name).Nodup)
    (hnames : ∀ s ∈ subs, s.name ≠ "") :
    seqRunCheck subs = String.intercalate "," (seqSpecFailingNames subs) ∧
    (seqRunCheck subs = "" ↔ ∀ s ∈ subs, s.outcome.truthy = false) := by
  have hmem : ∀ p ∈ seqSpecOrder subs, p.2 ∈ subs := by
    intro p hp
    have h1 : p ∈ subs.enum := (seqSpecOrder_perm subs).mem_iff.mp hp
    have h2 : p.2 ∈ subs.enum.map Prod.snd := List.mem_map_of_mem Prod.snd h1
    rwa [List.enum_eq_enumFrom, List.enumFrom_map_snd] at h2
  have hmain : seqRunCheck subs =
      String.intercalate "," (seqSpecFailingNames subs) := by
    show String.intercalate ","
        ((((subs.enum.map seqKey).insertionSort tripleLE).map
            fun t => t.2.2).filter
          fun n => subs.any fun s => s.name == n && s.outcome.truthy) =
      String.intercalate "," (seqSpecFailingNames subs)
    rw [seq_sorted_eq, List.map_map]
    have hcomp : ((fun t : Int × Nat × String => t.2.2) ∘ seqKey) =
        fun p : Nat × SubProbe => p.2.name := rfl
    rw [hcomp, filter_failing_eq hnodup _ hmem]
    rfl
  refine ⟨hmain, ?_⟩
  constructor
  · intro hempty s hs
    by_contra hfail
    rw [Bool.not_eq_false] at hfail
    have h2 : s ∈ subs.enum.map Prod.snd := by
      rwa [List.enum_eq_enumFrom, List.enumFrom_map_snd]
    obtain ⟨p, hp, hps⟩ := List.mem_map.mp h2
    have hp' : p ∈ seqSpecOrder subs := (seqSpecOrder_perm subs).mem_iff.mpr hp
    have hpf : p ∈ (seqSpecOrder subs).filter fun q => q.2.outcome.truthy :=
      List.mem_filter.mpr ⟨hp', by rw [hps]; exact hfail⟩
    have hname : p.2.name ∈ seqSpecFailingNames subs :=
      List.mem_map_of_mem _ hpf
    rw [hmain] at hempty
    rcases hl : seqSpecFailingNames subs with _ | ⟨a, t⟩
    · rw [hl] at hname; cases hname
    · rw [hl] at hempty
      refine intercalate_ne_empty a t ?_ hempty
      have ha : a ∈ seqSpecFailingNames subs := by rw [hl]; exact List.mem_cons_self _ _
      obtain ⟨q, hq, hqa⟩ := List.mem_map.mp ha
      exact hqa ▸ hnames q.2 (hmem q (List.mem_of_mem_filter hq))
  · intro hall
    rw [hmain]
    have hnil : seqSpecFailingNames subs = [] := by
      unfold seqSpecFailingNames
      rw [List.filter_eq_nil_iff.mpr, List.map_nil]
      intro p hp
      rw [hall p.2 (hmem p hp)]
      exact Bool.false_ne_true
    rw [hnil]
    rfl

/-- Witness for the amended C2 at two sub-probes where the later-added
sub-probe has the smaller priority and fails. -/
theorem C2_witness :
    (seqRunCheck [⟨"x", 1, .b false⟩, ⟨"y", 0, .b true⟩] =
      String.intercalate ","
        (seqSpecFailingNames [⟨"x", 1, .b false⟩, ⟨"y", 0, .b true⟩]) ∧
    (seqRunCheck [⟨"x", 1, .b false⟩, ⟨"y", 0, .b true⟩] = "" ↔
      ∀ s ∈ [(⟨"x", 1, .b false⟩ : SubProbe), ⟨"y", 0, .b true⟩],
        s.outcome.truthy = false)) :=
  C2_sequence_csv [⟨"x", 1, .b false⟩, ⟨"y", 0, .b true⟩]
    (by decide) (by decide)

/-- C1: for every probe and every call to `update()` in which the last
`_runCheck` attempt returns a failing (truthy) outcome and the
resulting `failCount` is still strictly less than `threshold`,
`failState` is left unchanged, `lastFail` is left unchanged, and
`notify()` is not called. -/
theorem C1_below_threshold_frame (c : CheckState)
    (deps : List (String × FailVal)) (now : String)
    (attempts : Nat → FailVal) (runLog : List String)
    (hdep : firstFailingDep deps = none)
    (hfail : (retryLoop c.retries attempts).truthy = true)
    (hbelow : c.failCount + 1 < c.threshold) :
    (update c deps now attempts runLog).state.failState = c.failState ∧
    (update c deps now attempts runLog).state.lastFail = c.lastFail ∧
    (update c deps now attempts runLog).notified = false := by
  have hcond : ¬(c.threshold ≤ c.failCount + 1 ∧
      retryLoop c.retries attempts ≠ c.failState) :=
    fun h => absurd h.1 (by omega)
  simp [update, hdep, hfail, hcond]

/-- Witness for C1 at a concrete probe: threshold 2, a single failing
attempt, starting `failCount` 0. -/
theorem C1_witness :
    (update { threshold := 2 } [] "t" (fun _ => .b true) []).state.failState
        = ({ threshold := 2 } : CheckState).failState ∧
    (update { threshold := 2 } [] "t" (fun _ => .b true) []).state.lastFail
        = ({ threshold := 2 } : CheckState).lastFail ∧
    (update { threshold := 2 } [] "t" (fun _ => .b true) []).notified = false :=
  C1_below_threshold_frame { threshold := 2 } [] "t" (fun _ => .b true) []
    (by decide) (by decide) (by decide)

/-- C3: for every probe with at least one dependency whose `failState`
is truthy at the start of `update()`, the update returns without
calling `_runCheck` (the result does not depend on the `_runCheck`
outcomes at all), leaves `failState`, `failCount`, `lastPass`,
`lastFail` and `oldLog` unchanged, sets `softFail` to the name of the
first failing dependency in insertion order, and does not call
`notify()`. -/
theorem C3_softfail_frame (c : CheckState) (deps : List (String × FailVal))
    (now : String) (attempts : Nat → FailVal) (runLog : List String)
    (d : String) (hdep : firstFailingDep deps = some d) :
    (update c deps now attempts runLog).state.failState = c.failState ∧
    (update c deps now attempts runLog).state.failCount = c.failCount ∧
    (update c deps now attempts runLog).state.lastPass = c.lastPass ∧
    (update c deps now attempts runLog).state.lastFail = c.lastFail ∧
    (update c deps now attempts runLog).state.oldLog = c.oldLog ∧
    (update c deps now attempts runLog).state.softFail = some d ∧
    (update c deps now attempts runLog).notified = false ∧
    (∀ (attempts' : Nat → FailVal) (runLog' : List String),
      update c deps now attempts' runLog' =
        update c deps now attempts runLog) := by
  refine ⟨?_, ?_, ?_, ?_, ?_, ?_, ?_, ?_⟩ <;> simp [update, hdep]

/-- Witness for C3 at a concrete probe with one failing dependency. -/
theorem C3_witness :
    (update {} [("a", .b true)] "t" (fun _ => .b false) []).state.failState
        = ({} : CheckState).failState ∧
    (update {} [("a", .b true)] "t" (fun _ => .b false) []).state.failCount
        = ({} : CheckState).failCount ∧
    (update {} [("a", .b true)] "t" (fun _ => .b false) []).state.lastPass
        = ({} : CheckState).lastPass ∧
    (update {} [("a", .b true)] "t" (fun _ => .b false) []).state.lastFail
        = ({} : CheckState).lastFail ∧
    (update {} [("a", .b true)] "t" (fun _ => .b false) []).state.oldLog
        = ({} : CheckState).oldLog ∧
    (update {} [("a", .b true)] "t" (fun _ => .b false) []).state.softFail
        = some "a" ∧
    (update {} [("a", .b true)] "t" (fun _ => .b false) []).notified = false ∧
    (∀ (attempts' : Nat → FailVal) (runLog' : List String),
      update {} [("a", .b true)] "t" attempts' runLog' =
        update {} [("a", .b true)] "t" (fun _ => .b false) []) :=
  C3_softfail_frame {} [("a", .b true)] "t" (fun _ => .b false) [] "a"
    (by decide)

/-- C4 fails on the code: on the soft-fail early-return path `update`
returns the constant `True` (`check.py` line 197), not the probe's
`failState`.  A passing probe (`failState = False`) with a failing
dependency keeps `failState = False` but `update` returns `True`. -/
theorem C4_counterexample :
    (update { failState := .b false } [("a", .b true)] "t"
        (fun _ => .b false) []).ret ≠
      (update { failState := .b false } [("a", .b true)] "t"
        (fun _ => .b false) []).state.failState := by
  decide

/-- C4 amended: `update()` returns the post-update `failState` on every
path except the soft-fail early return, where it returns `True`
regardless of the probe's `failState`. -/
theorem C4_return_value (c : CheckState) (deps : List (String × FailVal))
    (now : String) (attempts : Nat → FailVal) (runLog : List String) :
    (update c deps now attempts runLog).ret =
      match firstFailingDep deps with
      | some _ => .b true
      | none => (update c deps now attempts runLog).state.failState := by
  cases hdep : firstFailingDep deps
  · simp only [update, hdep]
    split <;> split <;> rfl
  · simp [update, hdep]

/-- C9: starting from a site log with at most 200 entries,
`LogHandler.emit` leaves at most 200 entries; when the append exceeds
the bound (only possible with exactly 200 entries before), exactly the
10 oldest entries are pruned from the head. -/
theorem C9_emit_bound (siteLog : List String) (msg : String)
    (h : siteLog.length ≤ 200) :
    (emit siteLog msg).length ≤ 200 ∧
    (siteLog.length = 200 →
      emit siteLog msg = (siteLog ++ [msg]).drop 10) := by
  constructor
  · simp only [emit]
    split
    · simp
      omega
    · rename_i hc
      simp at hc
      simp
      omega
  · intro h200
    simp [emit, h200]

/-- Witness for C9 at a log holding exactly 200 entries. -/
theorem C9_witness :
    (emit (List.replicate 200 "x") "m").length ≤ 200 ∧
    ((List.replicate 200 "x").length = 200 →
      emit (List.replicate 200 "x") "m" =
        (List.replicate 200 "x" ++ ["m"]).drop 10) :=
  C9_emit_bound (List.replicate 200 "x") "m" (by rw [List.length_replicate])

/-- Python `str.lower()` restricted to ASCII, which covers every
string this code base feeds through it. -/
def pyLower (s : String) : String :=
  ⟨s.data.map Char.toLower⟩

/-- Accumulating splitter behind `str.split()` (no separator):
whitespace-delimited runs, empty runs discarded. -/
def splitWsAux : List Char → List Char → List (List Char)
  | [], acc => if acc = [] then [] else [acc.reverse]
  | c :: rest, acc =>
      if c.isWhitespace then
        if acc = [] then splitWsAux rest []
        else acc.reverse :: splitWsAux rest []
      else splitWsAux rest (c :: acc)

/-- Python `str.split()` with no separator. -/
def pySplit (s : String) : List String :=
  (splitWsAux s.data []).map fun l => ⟨l⟩

/-- Python `' '.join(l)`. -/
def pyJoin : List String → String
  | [] => ""
  | [x] => x
  | x :: y :: rest => x ++ " " ++ pyJoin (y :: rest)

/-- Numeric value of a list of ASCII digit characters. -/
def parseNat (l : List Char) : Nat :=
  l.foldl (fun a c => 10 * a + (c.toNat - 48)) 0

/-- Decimal digit characters of `n`, most significant first (`fuel`
bounds the recursion; `fuel ≥ n` suffices). -/
def printNat : Nat → Nat → List Char
  | _, 0 => []
  | 0, _ + 1 => []
  | fuel + 1, n + 1 =>
      printNat fuel ((n + 1) / 10) ++ [Nat.digitChar ((n + 1) % 10)]

/-- Python `str` of a non-negative int. -/
def natToString (n : Nat) : String :=
  if n = 0 then "0" else ⟨printNat n n⟩

/-- Python `str` of an int: canonical decimal with a leading minus for
negatives. -/
def intToString (v : Int) : String :=
  if v < 0 then "-" ++ natToString (-v).toNat else natToString v.toNat

/-- Python `int(s)` on the strings that occur here: optional sign
followed by ASCII digits (whitespace padding and underscore grouping,
which Python also accepts, cannot occur in a whitespace-split token
produced by this grammar). -/
def pyInt (s : String) : Option Int :=
  match s.data with
  | [] => none
  | c :: rest =>
      if c = '-' then
        if rest ≠ [] ∧ rest.all Char.isDigit then
          some (-(parseNat rest : Int))
        else none
      else if c = '+' then
        if rest ≠ [] ∧ rest.all Char.isDigit then
          some ((parseNat rest : Int))
        else none
      else if (c :: rest).all Char.isDigit then
        some ((parseNat (c :: rest) : Int))
      else none

/-- The interval `keyMap` of `text2Trigger` (`util.py` lines 151-155):
every `_INTERVALKEYS` key maps to itself and its alias maps to it. -/
def INTERVAL_UNITS : List (String × String) :=
  [("weeks", "weeks"), ("week", "weeks"),
   ("days", "days"), ("day", "days"),
   ("hours", "hours"), ("hr", "hours"),
   ("minutes", "minutes"), ("min", "minutes"),
   ("seconds", "seconds"), ("sec", "seconds"),
   ("start_date", "start_date"), ("start", "start_date"),
   ("end_date", "end_date"), ("end", "end_date"),
   ("timezone", "timezone"), ("z", "timezone"),
   ("jitter", "jitter"), ("delay", "jitter")]

/-- The cron `keyMap` of `text2Trigger` (`util.py` lines 156-160). -/
def CRON_UNITS : List (String × String) :=
  [("year", "year"), ("month", "month"), ("day", "day"),
   ("week", "week"), ("day_of_week", "day_of_week"),
   ("weekday", "day_of_week"), ("hour", "hour"), ("hr", "hour"),
   ("minute", "minute"), ("min", "minute"), ("second", "second"),
   ("sec", "second"), ("start_date", "start_date"),
   ("start", "start_date"), ("end_date", "end_date"),
   ("end", "end_date"), ("timezone", "timezone"), ("z", "timezone"),
   ("jitter", "jitter"), ("delay", "jitter")]

/-- `tok in keyMap` plus `keyMap[tok]` for the interval grammar. -/
def intervalKey (tok : String) : Option String :=
  INTERVAL_UNITS.lookup tok

/-- `tok in keyMap` plus `keyMap[tok]` for the cron grammar. -/
def cronKey (tok : String) : Option String :=
  CRON_UNITS.lookup tok

/-- The scan loop of `text2Trigger` (`util.py` lines 163-194) as a
list of raw `(field, value)` assignments in emission order: a unit
token at the top of the loop with no pending value tokens is skipped
as spurious (with pending value tokens the loop structure never meets
one), a value token is accumulated, and a unit token right after value
tokens emits `(keyMap[unit], ' '.join(values))`; trailing value tokens
emit under `keyMap['min']` (`minKey`).  The integer coercion applied
at emission time is deferred to the assignment application, which
fails exactly when `int()` would raise. -/
def scanTokens (isKey : String → Option String) (minKey : String) :
    List String → List String → List (String × String)
  | [], acc => if acc = [] then [] else [(minKey, pyJoin acc)]
  | [t], acc =>
      match isKey t with
      | some _ => if acc = [] then [] else [(minKey, pyJoin acc)]
      | none =>
          let acc := acc ++ [t]
          [(minKey, pyJoin acc)]
  | t :: t2 :: rest, acc =>
      match isKey t with
      | some _ => scanTokens isKey minKey (t2 :: rest) acc
      | none =>
          let acc := acc ++ [t]
          match isKey t2 with
          | some k => (k, pyJoin acc) :: scanTokens isKey minKey rest []
          | none => scanTokens isKey minKey (t2 :: rest) acc

/-- Apply the scanned assignments to an interval trigger map: the
`_INTTRIGKEYS` fields coerce their value with `int()` (failure aborts
the whole parse), later assignments overwrite earlier ones. -/
def applyInterval (m : IntervalTrigger) :
    List (String × String) → Option IntervalTrigger
  | [] => some m
  | (k, v) :: rest =>
      if k = "weeks" then
        (pyInt v).bind fun n => applyInterval { m with weeks := some n } rest
      else if k = "days" then
        (pyInt v).bind fun n => applyInterval { m with days := some n } rest
      else if k = "hours" then
        (pyInt v).bind fun n => applyInterval { m with hours := some n } rest
      else if k = "minutes" then
        (pyInt v).bind fun n =>
          applyInterval { m with minutes := some n } rest
      else if k = "seconds" then
        (pyInt v).bind fun n =>
          applyInterval { m with seconds := some n } rest
      else if k = "jitter" then
        (pyInt v).bind fun n => applyInterval { m with jitter := some n } rest
      else if k = "start_date" then
        applyInterval { m with start_date := some v } rest
      else if k = "end_date" then
        applyInterval { m with end_date := some v } rest
      else if k = "timezone" then
        applyInterval { m with timezone := some v } rest
      else none

/-- Apply the scanned assignments to a cron trigger map: only `jitter`
is in `_INTTRIGKEYS`; the calendar fields keep their string value. -/
def applyCron (m : CronTrigger) :
    List (String × String) → Option CronTrigger
  | [] => some m
  | (k, v) :: rest =>
      if k = "year" then applyCron { m with year := some (.s v) } rest
      else if k = "month" then applyCron { m with month := some (.s v) } rest
      else if k = "day" then applyCron { m with day := some (.s v) } rest
      else if k = "week" then applyCron { m with week := some (.s v) } rest
      else if k = "day_of_week" then
        applyCron { m with day_of_week := some (.s v) } rest
      else if k = "hour" then applyCron { m with hour := some (.s v) } rest
      else if k = "minute" then
        applyCron { m with minute := some (.s v) } rest
      else if k = "second" then
        applyCron { m with second := some (.s v) } rest
      else if k = "jitter" then
        (pyInt v).bind fun n => applyCron { m with jitter := some n } rest
      else if k = "start_date" then
        applyCron { m with start_date := some v } rest
      else if k = "end_date" then
        applyCron { m with end_date := some v } rest
      else if k = "timezone" then
        applyCron { m with timezone := some v } rest
      else none

/-- Tokens emitted by `trigger2Text` for one integer field. -/
def intTok (v : Option Int) (al : String) : List String :=
  match v with
  | some n => [intToString n, al]
  | none => []

/-- Tokens emitted by `trigger2Text` for one string field. -/
def strTok (v : Option String) (al : String) : List String :=
  match v with
  | some s => [s, al]
  | none => []

/-- Tokens emitted by `trigger2Text` for one cron calendar field. -/
def cronvTok (v : Option CronVal) (al : String) : List String :=
  match v with
  | some (.i n) => [intToString n, al]
  | some (.s s) => [s, al]
  | none => []

/-- The `str(value), alias` pairs emitted for an interval trigger, in
`_INTERVALKEYS` iteration order (`util.py` lines 113-118). -/
def intervalTokens (m : IntervalTrigger) : List String :=
  intTok m.weeks "week" ++ intTok m.days "day" ++ intTok m.hours "hr" ++
  intTok m.minutes "min" ++ intTok m.seconds "sec" ++
  strTok m.start_date "start" ++ strTok m.end_date "end" ++
  strTok m.timezone "z" ++ intTok m.jitter "delay"

/-- The `str(value), alias` pairs emitted for a cron trigger, in
`_CRONKEYS` iteration order (`util.py` lines 119-124). -/
def cronTokens (m : CronTrigger) : List String :=
  cronvTok m.year "year" ++ cronvTok m.month "month" ++
  cronvTok m.day "day" ++ cronvTok m.week "week" ++
  cronvTok m.day_of_week "weekday" ++ cronvTok m.hour "hr" ++
  cronvTok m.minute "min" ++ cronvTok m.second "sec" ++
  strTok m.start_date "start" ++ strTok m.end_date "end" ++
  strTok m.timezone "z" ++ intTok m.jitter "delay"

/-- `trigger2Text` (`util.py` lines 109-125): the kind tag followed by
`str(value) alias` pairs in fixed key order, joined with spaces. -/
def trigger2Text (t : Trigger) : String :=
  match t with
  | .interval m => pyJoin ("interval" :: intervalTokens m)
  | .cron m => pyJoin ("cron" :: cronTokens m)

/-- `text2Trigger` (`util.py` lines 128-208).  `accept` stands for the
scheduler's trigger constructor (`IntervalTrigger(**trigMap)` /
`CronTrigger(**trigMap)`, an external library): `accept t = false`
models the constructor raising, in which case — as for any exception,
including a failing `int()` coercion — the function returns `None`. -/
def parseIntervalToks (accept : Trigger → Bool) (tv : List String) :
    Option Trigger :=
  match applyInterval {} (scanTokens intervalKey "minutes" tv []) with
  | some m => if accept (.interval m) then some (.interval m) else none
  | none => none

def parseCronToks (accept : Trigger → Bool) (tv : List String) :
    Option Trigger :=
  match applyCron {} (scanTokens cronKey "minute" tv []) with
  | some m => if accept (.cron m) then some (.cron m) else none
  | none => none

def parseTokens (accept : Trigger → Bool) (t0 : String)
    (rest : List String) : Option Trigger :=
  let (isCron, tv) :=
    if t0 = "interval" then (false, rest)
    else if t0 = "cron" then (true, rest)
    else (false, t0 :: rest)
  if isCron then parseCronToks accept tv
  else parseIntervalToks accept tv

def text2Trigger (accept : Trigger → Bool) (triggerText : String) :
    Option Trigger :=
  if triggerText = "" then none
  else
    match pySplit (pyLower triggerText) with
    | [] => none
    | t0 :: rest => parseTokens accept t0 rest

/-- A check as the site-level operations of `util.py` see it: its
type tag, the key list of its `depends` dict (insertion order), the key
list of a sequence check's `checks` dict (empty for non-sequence
checks, which have no such attribute), and its `options['checks']`
list when present. -/
structure SiteCheck where
  checkType : Option String := none
  depends : List String := []
  seqChecks : List String := []
  optChecks : Option (List String) := none
deriving DecidableEq, Repr

/-- A Python dict key insert at name level: an existing key keeps its
position, a new key is appended. -/
def keyAdd (l : List String) (k : String) : List String :=
  if k ∈ l then l else l ++ [k]

/-- `del d[k]` on an insertion-ordered dict with unique keys. -/
def dictDel (m : List (String × SiteCheck)) (k : String) :
    List (String × SiteCheck) :=
  m.filter fun p => p.1 ≠ k

/-- `d[k] = v` on an insertion-ordered dict: replace in place when the
key exists, else append. -/
def dictSet (m : List (String × SiteCheck)) (k : String) (v : SiteCheck) :
    List (String × SiteCheck) :=
  if k ∈ m.map Prod.fst then
    m.map fun p => if p.1 = k then (k, v) else p
  else m ++ [(k, v)]

/-- `BaseCheck.replace_depend` / `sequenceCheck.replace_check`
(`check.py` lines 259-263 and 734-738) at name level: when `oldName`
is a key, delete it and insert the replacement's name (a dict insert:
an already-present `newName` keeps its position). -/
def replaceRef (l : List String) (oldName newName : String) :
    List String :=
  if oldName ∈ l then keyAdd (l.filter fun x => x ≠ oldName) newName
  else l

/-- `cl[cl.index(oldName)] = newName` (`util.py` line 355): overwrite
only the first occurrence. -/
def replaceFirst : List String → String → String → List String
  | [], _, _ => []
  | x :: xs, o, n => if x = o then n :: xs else x :: replaceFirst xs o n

/-- The name-level content of the check built by `addCheck`
(`util.py` lines 358-388): dependencies are the config's `depends`
entries present in the site (deduplicated by the dict), sequence
membership likewise from `options['checks']` for a sequence check.
`loadCheck` is assumed to succeed (a config with an unregistered type
would raise inside `addCheck`). -/
def mkSiteCheck (checkNames : List String) (config : Config) : SiteCheck :=
  let opts := config.options.getD {}
  { checkType := config.type
    depends := (config.depends.filter fun d => d ∈ checkNames).foldl
      keyAdd []
    seqChecks :=
      if config.type = some "sequence" then
        match opts.checks with
        | some cl => (cl.filter fun s => s ∈ checkNames).foldl keyAdd []
        | none => []
      else []
    optChecks := opts.checks }

/-- `addCheck` (`util.py` lines 358-407) at name level: build the new
check against the current site and store it under `name` (scheduling
and action attachment do not touch the reference graph). -/
def addCheck (checks : List (String × SiteCheck)) (name : String)
    (config : Config) : List (String × SiteCheck) :=
  dictSet checks name (mkSiteCheck (checks.map Prod.fst) config)

/-- The body of the repair loop of `updateCheck` (`util.py` lines
344-355) for one check `c` with `name != newName`: replace the
dependency edge, replace sequence membership for a sequence check,
and — when the name changed — rewrite the first occurrence of
`oldName` in `options['checks']`. -/
def repairCheck (c : SiteCheck) (oldName newName : String) : SiteCheck :=
  let c := { c with depends := replaceRef c.depends oldName newName }
  let c :=
    if c.checkType = some "sequence" then
      { c with seqChecks := replaceRef c.seqChecks oldName newName }
    else c
  if oldName ≠ newName then
    match c.optChecks with
    | some cl =>
        if oldName ∈ cl then
          { c with optChecks := some (replaceFirst cl oldName newName) }
        else c
    | none => c
  else c

/-- `updateCheck` (`util.py` lines 327-355): drop the old check, add
the new config under the new name, then repair every other check:
replace dependency edges, replace sequence membership for sequence
checks, and (when the name changed) rewrite the first occurrence of
`oldName` in an `options['checks']` list. -/
def updateCheck (checks : List (String × SiteCheck))
    (oldName newName : String) (config : Config) :
    List (String × SiteCheck) :=
  let checks := dictDel checks oldName
  let checks := addCheck checks newName config
  checks.map fun p =>
    if p.1 ≠ newName then (p.1, repairCheck p.2 oldName newName) else p

/-- A flat config whose `data` holds a pass `failState` together with a
positive `failCount` — `loadCheck` accepts both fields independently. -/
def exPassFiveConfig : Config :=
  { type := some "https",
    data := some { failState := some (.b false), failCount := some 5 } }

/-- A remote check with no `timeout` option but a saved `oldLog`. -/
def exRemoteNoTimeout : CheckState :=
  { options := { timeout := none }, oldLog := some ["prev"], log := [] }

/-- A remote check with `timeout` 60 and a saved `oldLog`. -/
def exRemoteSixty : CheckState :=
  { options := { timeout := some 60 }, lastUpdate := some "x",
    oldLog := some ["r"], log := [] }

/-- C6 fails on the code: all three mutating operations can leave a
probe with `failState` at the pass value and `failCount` positive.  A
failing update below threshold keeps `failState = False` while
incrementing `failCount`; `loadCheck` and `remoteUpdate` copy
`failState` and `failCount` independently from their input. -/
theorem C6_counterexample :
    ((update { failState := .b false, threshold := 2 } [] "t"
        (fun _ => .b true) []).state.failState = .b false ∧
      (update { failState := .b false, threshold := 2 } [] "t"
        (fun _ => .b true) []).state.failCount = 1) ∧
    (loadCheck exPassFiveConfig).map (fun c => (c.failState, c.failCount))
        = some (.b false, 5) ∧
    ((remoteUpdate {} "agent"
        ⟨.b false, 3, 1, [], none, none, none, none⟩ "now" true).1.failState
          = .b false ∧
      (remoteUpdate {} "agent"
        ⟨.b false, 3, 1, [], none, none, none, none⟩ "now" true).1.failCount
          = 3) := by
  refine ⟨⟨rfl, rfl⟩, rfl, rfl, rfl⟩

/-- C6 amended: a non-soft-failed `update()` resets `failCount` to 0
exactly when the observed outcome passes, and increments it by exactly
one when it fails — so below threshold a probe can hold the pass value
in `failState` with a positive `failCount`, and `loadCheck` /
`remoteUpdate` take `failState` and `failCount` verbatim from their
input without enforcing the claimed invariant. -/
theorem C6_failCount_update (c : CheckState)
    (deps : List (String × FailVal)) (now : String)
    (attempts : Nat → FailVal) (runLog : List String)
    (hdep : firstFailingDep deps = none) :
    ((retryLoop c.retries attempts).truthy = false →
      (update c deps now attempts runLog).state.failCount = 0) ∧
    ((retryLoop c.retries attempts).truthy = true →
      (update c deps now attempts runLog).state.failCount =
        c.failCount + 1) := by
  constructor <;> intro h <;> simp [update, hdep, h] <;> split <;> rfl

/-- Witness for the amended C6: a passing update resets `failCount`. -/
theorem C6_witness :
    ((retryLoop ({ failCount := 4 } : CheckState).retries
        (fun _ => .b false)).truthy = false →
      (update { failCount := 4 } [] "t" (fun _ => .b false) []
        ).state.failCount = 0) ∧
    ((retryLoop ({ failCount := 4 } : CheckState).retries
        (fun _ => .b false)).truthy = true →
      (update { failCount := 4 } [] "t" (fun _ => .b false) []
        ).state.failCount = ({ failCount := 4 } : CheckState).failCount + 1) :=
  C6_failCount_update { failCount := 4 } [] "t" (fun _ => .b false) []
    (by decide)

/-- C7 fails on the code as stated: when `options['timeout']` is not
set, `remoteCheck._runCheck` does not restore `oldLog` — the probe's
log stays empty instead of showing the prior remote report. -/
theorem C7_counterexample :
    (remoteRunCheck exRemoteNoTimeout 100).1.log = [] ∧
      exRemoteNoTimeout.oldLog = some ["prev"] :=
  ⟨rfl, rfl⟩

/-- C7 amended: when `options['timeout']` is set and non-zero and
`lastUpdate` is a non-empty string, then if the elapsed seconds exceed
the timeout `_runCheck` returns `True` and appends a log line beginning
"Timeout waiting for update", and otherwise it restores `oldLog`
whenever `oldLog` is non-empty (leaving the log unchanged when `oldLog`
is empty or absent, and in particular whenever the timeout or
`lastUpdate` is unset). -/
theorem C7_remote_staleness (c : CheckState) (et t : Int) (lu : String)
    (htimeout : c.options.timeout = some t) (ht : t ≠ 0)
    (hlu : c.lastUpdate = some lu) (hlu' : lu ≠ "") :
    (t < et →
      (remoteRunCheck c et).2 = .b true ∧
      (remoteRunCheck c et).1.log = c.log ++
        ["Timeout waiting for update " ++ toString et ++ " sec (" ++
          lu ++ ")"]) ∧
    (¬ t < et →
      (remoteRunCheck c et).2 = c.failState ∧
      (remoteRunCheck c et).1.log =
        match c.oldLog with
        | some ol => if ol ≠ [] then ol else c.log
        | none => c.log) := by
  simp only [remoteRunCheck, htimeout, hlu]
  constructor
  · intro h
    rw [if_pos ⟨ht, hlu'⟩, if_pos h]
    exact ⟨rfl, rfl⟩
  · intro h
    rw [if_pos ⟨ht, hlu'⟩, if_neg h]
    cases c.oldLog with
    | none => exact ⟨rfl, rfl⟩
    | some ol =>
      by_cases hol : ol ≠ [] <;> simp [hol]

/-- Witness for the amended C7: timeout 60, elapsed 90. -/
theorem C7_witness :
    ((60 : Int) < 90 →
      (remoteRunCheck exRemoteSixty 90).2 = .b true ∧
      (remoteRunCheck exRemoteSixty 90).1.log = exRemoteSixty.log ++
        ["Timeout waiting for update " ++ toString (90 : Int) ++
          " sec (" ++ "x" ++ ")"]) ∧
    (¬ (60 : Int) < 90 →
      (remoteRunCheck exRemoteSixty 90).2 = exRemoteSixty.failState ∧
      (remoteRunCheck exRemoteSixty 90).1.log =
        match exRemoteSixty.oldLog with
        | some ol => if ol ≠ [] then ol else exRemoteSixty.log
        | none => exRemoteSixty.log) :=
  C7_remote_staleness exRemoteSixty 90 60 "x" rfl (by decide) rfl (by decide)

/-- C10 fails on the code as stated: `loadCheck` itself accepts
`data.threshold = 0` (the guard is `>= 0`), but `flatten` emits the
threshold only at top level, where reloading requires `> 0` — a check
with `threshold = 0` reloads with `threshold = 1`. -/
theorem C10_counterexample :
    (loadCheck (flatten { checkType := some "smtp", threshold := 0 } []
        [])).map CheckState.threshold = some 1 ∧
    ({ checkType := some "smtp", threshold := 0 } : CheckState).threshold
      = 0 :=
  ⟨rfl, rfl⟩

/-- C10 amended: for every check `c` with a registered check type and
`threshold ≥ 1` (and `retries ≥ 1`, which always holds in the code),
`loadCheck` on `c.flatten()` returns a check whose `checkType`,
`subType`, `trigger`, `threshold`, `retries`, `priority`, `failAction`,
`passAction`, `publish`, `options`, `failState`, `failCount`, `log`,
`lastCheck`, `lastUpdate`, `lastFail` and `lastPass` equal those of `c`
(action and dependency edges are re-linked separately by the site). -/
theorem C10_load_flatten (c : CheckState) (actList depList : List String)
    (t : String) (htype : c.checkType = some t) (hreg : t ∈ CHECK_TYPES)
    (hthr : 0 < c.threshold) (hret : 0 < c.retries) :
    ∃ c', loadCheck (flatten c actList depList) = some c' ∧
      c'.checkType = c.checkType ∧ c'.subType = c.subType ∧
      c'.trigger = c.trigger ∧ c'.threshold = c.threshold ∧
      c'.retries = c.retries ∧ c'.priority = c.priority ∧
      c'.failAction = c.failAction ∧ c'.passAction = c.passAction ∧
      c'.publish = c.publish ∧ c'.options = c.options ∧
      c'.failState = c.failState ∧ c'.failCount = c.failCount ∧
      c'.log = c.log ∧ c'.lastCheck = c.lastCheck ∧
      c'.lastUpdate = c.lastUpdate ∧ c'.lastFail = c.lastFail ∧
      c'.lastPass = c.lastPass := by
  have hthr' : (0 : Int) < (c.threshold : Int) := by exact_mod_cast hthr
  have hret' : (0 : Int) < (c.retries : Int) := by exact_mod_cast hret
  have hfc' : (0 : Int) ≤ (c.failCount : Int) := Int.natCast_nonneg _
  have heq : loadCheck (flatten c actList depList) = some
      { checkType := some t, subType := c.subType, trigger := c.trigger,
        threshold := c.threshold, retries := c.retries,
        priority := c.priority, failAction := c.failAction,
        passAction := c.passAction, publish := c.publish,
        options := c.options, failState := c.failState,
        softFail := c.softFail, failCount := c.failCount, log := c.log,
        oldLog := none, lastFail := c.lastFail, lastPass := c.lastPass,
        lastCheck := c.lastCheck, lastUpdate := c.lastUpdate } := by
    simp only [loadCheck, flatten, htype]
    rw [if_pos hreg]
    simp [hthr', hret', hfc']
  exact ⟨_, heq, htype.symm, rfl, rfl, rfl, rfl, rfl, rfl, rfl, rfl, rfl,
    rfl, rfl, rfl, rfl, rfl, rfl, rfl⟩

/-- A concrete sequence check with non-default state fields. -/
def exSeqState : CheckState :=
  { checkType := some "sequence", subType := some "sub", threshold := 2,
    retries := 3, priority := -1, failState := .s "a", failCount := 2,
    log := ["l"], lastFail := some "f" }

/-- Witness for the amended C10 at a concrete sequence check. -/
theorem C10_witness :
    ∃ c', loadCheck (flatten exSeqState ["act"] ["dep"]) = some c' ∧
      c'.checkType = exSeqState.checkType ∧
      c'.subType = exSeqState.subType ∧
      c'.trigger = exSeqState.trigger ∧
      c'.threshold = exSeqState.threshold ∧
      c'.retries = exSeqState.retries ∧
      c'.priority = exSeqState.priority ∧
      c'.failAction = exSeqState.failAction ∧
      c'.passAction = exSeqState.passAction ∧
      c'.publish = exSeqState.publish ∧
      c'.options = exSeqState.options ∧
      c'.failState = exSeqState.failState ∧
      c'.failCount = exSeqState.failCount ∧
      c'.log = exSeqState.log ∧
      c'.lastCheck = exSeqState.lastCheck ∧
      c'.lastUpdate = exSeqState.lastUpdate ∧
      c'.lastFail = exSeqState.lastFail ∧
      c'.lastPass = exSeqState.lastPass :=
  C10_load_flatten exSeqState ["act"] ["dep"] "sequence" rfl (by decide)
    (by decide) (by decide)

theorem keyAdd_mem {l : List String} {k a : String} (h : a ∈ keyAdd l k) :
    a ∈ l ∨ a = k := by
  unfold keyAdd at h
  split at h
  · exact Or.inl h
  · rcases List.mem_append.mp h with h | h
    · exact Or.inl h
    · exact Or.inr (List.mem_singleton.mp h)

theorem replaceRef_not_mem (l : List String) {o n : String} (h : o ≠ n) :
    o ∉ replaceRef l o n := by
  unfold replaceRef
  split
  · intro hmem
    rcases keyAdd_mem hmem with hmem | hmem
    · have := (List.mem_filter.mp hmem).2
      simp at this
    · exact h hmem
  · rename_i hno
    exact hno

theorem replaceFirst_not_mem (cl : List String) {o n : String} (h : o ≠ n)
    (hc : cl.count o ≤ 1) : o ∉ replaceFirst cl o n := by
  induction cl with
  | nil => simp [replaceFirst]
  | cons x xs ih =>
    unfold replaceFirst
    rw [List.count_cons] at hc
    split
    · rename_i hx
      intro hmem
      rcases List.mem_cons.mp hmem with h1 | h1
      · exact h h1
      · have hx' : (x == o) = true := beq_iff_eq.mpr hx
        rw [hx'] at hc
        simp at hc
        have hzero : xs.count o = 0 := by omega
        exact (List.count_eq_zero.mp hzero) h1
    · rename_i hx
      intro hmem
      rcases List.mem_cons.mp hmem with h1 | h1
      · exact hx h1.symm
      · have hx' : (x == o) = false := beq_eq_false_iff_ne.mpr hx
        rw [hx'] at hc
        simp at hc
        exact ih (by omega) h1

theorem dictSet_mem {m : List (String × SiteCheck)} {k : String}
    {v : SiteCheck} {p : String × SiteCheck} (hp : p ∈ dictSet m k v) :
    p = (k, v) ∨ (p ∈ m ∧ p.1 ≠ k) := by
  unfold dictSet at hp
  split at hp
  · obtain ⟨q, hq, hqe⟩ := List.mem_map.mp hp
    by_cases hq1 : q.1 = k
    · rw [if_pos hq1] at hqe
      exact Or.inl hqe.symm
    · rw [if_neg hq1] at hqe
      exact Or.inr ⟨hqe ▸ hq, hqe ▸ hq1⟩
  · rcases List.mem_append.mp hp with h | h
    · rename_i hk
      refine Or.inr ⟨h, fun he => hk ?_⟩
      exact he ▸ List.mem_map_of_mem Prod.fst h
    · exact Or.inl (List.mem_singleton.mp h)

theorem dictDel_mem {m : List (String × SiteCheck)} {k : String}
    {p : String × SiteCheck} (hp : p ∈ dictDel m k) : p ∈ m ∧ p.1 ≠ k := by
  unfold dictDel at hp
  have := List.mem_filter.mp hp
  exact ⟨this.1, by simpa using this.2⟩

theorem repairCheck_depends (c : SiteCheck) (o n : String) :
    (repairCheck c o n).depends = replaceRef c.depends o n := by
  by_cases hc : c.checkType = some "sequence" <;>
    by_cases hon : o ≠ n <;>
      cases hoc : c.optChecks <;>
        simp [repairCheck, hc, hon, hoc] <;>
          split <;> simp

theorem repairCheck_seqChecks (c : SiteCheck) (o n : String) :
    (repairCheck c o n).seqChecks =
      if c.checkType = some "sequence" then replaceRef c.seqChecks o n
      else c.seqChecks := by
  by_cases hc : c.checkType = some "sequence" <;>
    by_cases hon : o ≠ n <;>
      cases hoc : c.optChecks <;>
        simp [repairCheck, hc, hon, hoc] <;>
          split <;> simp

theorem repairCheck_optChecks (c : SiteCheck) {o n : String} (h : o ≠ n) :
    (repairCheck c o n).optChecks =
      match c.optChecks with
      | some cl => if o ∈ cl then some (replaceFirst cl o n) else some cl
      | none => none := by
  by_cases hc : c.checkType = some "sequence" <;>
    cases hoc : c.optChecks <;>
      simp [repairCheck, hc, h, hoc] <;>
        split <;> simp

/-- A site whose edges all reference existing probes: `c` is a
sequence over `a` that lists `a` twice in `options['checks']`, and `d`
depends on `a`. -/
def exSiteA : List (String × SiteCheck) :=
  [("a", { checkType := some "https" }),
   ("c", { checkType := some "sequence", seqChecks := ["a"],
           optChecks := some ["a", "a"] }),
   ("d", { checkType := some "https", depends := ["a"] })]

/-- C8 fails on the code as stated: only the first occurrence of the
old name in an `options['checks']` list is rewritten, so a duplicated
entry (each occurrence referencing the existing probe `a`) leaves a
dangling `a` after renaming `a` to `b`; and when the check is updated
under its unchanged name, dependency edges keep naming it. -/
theorem C8_counterexample :
    (∀ p ∈ exSiteA,
      (∀ d ∈ p.2.depends, d ∈ exSiteA.map Prod.fst) ∧
      (∀ s ∈ p.2.seqChecks, s ∈ exSiteA.map Prod.fst) ∧
      (∀ s ∈ p.2.optChecks.getD [], s ∈ exSiteA.map Prod.fst)) ∧
    "a" ∈ (((updateCheck exSiteA "a" "b" { type := some "https" }).lookup
      "c").getD {}).optChecks.getD [] ∧
    "a" ∈ (((updateCheck exSiteA "a" "a" { type := some "https" }).lookup
      "d").getD {}).depends := by
  refine ⟨by decide, by decide, by decide⟩

/-- C8 amended: after `updateCheck(site, old, new, config)` with
`old ≠ new`, on a site where every edge references an existing probe
and no probe lists `old` more than once in its `options['checks']`
list, no probe other than the renamed one has `old` in its depends
map, in its sequence checks map, or in its `options['checks']` list.
(Only the first `options['checks']` occurrence is rewritten, and with
`old = new` the references trivially keep the old name.)  The
`hseq` hypothesis is structural: non-sequence checks have no sequence
`checks` attribute. -/
theorem C8_rename_no_dangling (checks : List (String × SiteCheck))
    (oldName newName : String) (config : Config)
    (hne : oldName ≠ newName)
    (hedges : ∀ p ∈ checks,
      (∀ d ∈ p.2.depends, d ∈ checks.map Prod.fst) ∧
      (∀ s ∈ p.2.seqChecks, s ∈ checks.map Prod.fst) ∧
      (∀ s ∈ p.2.optChecks.getD [], s ∈ checks.map Prod.fst))
    (hseq : ∀ p ∈ checks, p.2.checkType ≠ some "sequence" →
      p.2.seqChecks = [])
    (hdup : ∀ p ∈ checks, (p.2.optChecks.getD []).count oldName ≤ 1) :
    ∀ p ∈ updateCheck checks oldName newName config, p.1 ≠ newName →
      oldName ∉ p.2.depends ∧ oldName ∉ p.2.seqChecks ∧
      oldName ∉ p.2.optChecks.getD [] := by
  intro p hp hpn
  unfold updateCheck at hp
  obtain ⟨q, hq, hqe⟩ := List.mem_map.mp hp
  have hq1 : q.1 ≠ newName := by
    intro he
    rw [if_neg (by simpa using he)] at hqe
    exact hpn (hqe ▸ he)
  rw [if_pos hq1] at hqe
  subst hqe
  rcases dictSet_mem hq with hnew | ⟨hqmem, -⟩
  · exact absurd (congrArg Prod.fst hnew) hq1
  · obtain ⟨hqchecks, -⟩ := dictDel_mem hqmem
    refine ⟨?_, ?_, ?_⟩
    · rw [repairCheck_depends]
      exact replaceRef_not_mem _ hne
    · rw [repairCheck_seqChecks]
      split
      · exact replaceRef_not_mem _ hne
      · rename_i hns
        rw [hseq q hqchecks hns]
        exact List.not_mem_nil _
    · rw [repairCheck_optChecks _ hne]
      cases hoc : q.2.optChecks with
      | none => simp
      | some cl =>
        have hcnt : cl.count oldName ≤ 1 := by
          have hd := hdup q hqchecks
          rwa [hoc] at hd
        show oldName ∉ (if oldName ∈ cl then
            some (replaceFirst cl oldName newName) else some cl).getD []
        by_cases hin : oldName ∈ cl
        · rw [if_pos hin, Option.getD_some]
          exact replaceFirst_not_mem cl hne hcnt
        · rw [if_neg hin, Option.getD_some]
          exact hin

/-- A well-formed site for the witness: a sequence `c` over `a` that
also depends on `a` and lists `a` once in `options['checks']`. -/
def exSiteB : List (String × SiteCheck) :=
  [("a", { checkType := some "https" }),
   ("c", { checkType := some "sequence", depends := ["a"],
           seqChecks := ["a"], optChecks := some ["a"] })]

/-- The sequence check `c` of `exSiteB` after the rename of `a` to
`b`: every reference now names `b`. -/
def exSiteBRenamed : SiteCheck :=
  { checkType := some "sequence", depends := ["b"], seqChecks := ["b"],
    optChecks := some ["b"] }

/-- Witness for the amended C8: after renaming `a` to `b` on
`exSiteB`, the repaired check `c` holds no reference to `a`. -/
theorem C8_witness :
    "a" ∉ (("c", exSiteBRenamed) : String × SiteCheck).2.depends ∧
    "a" ∉ (("c", exSiteBRenamed) : String × SiteCheck).2.seqChecks ∧
    "a" ∉ (("c", exSiteBRenamed) : String × SiteCheck).2.optChecks.getD [] :=
  C8_rename_no_dangling exSiteB "a" "b" { type := some "https" }
    (by decide) (by decide) (by decide) (by decide)
    ("c", exSiteBRenamed) (by decide) (by decide)

theorem splitWsAux_sep (b : List Char) :
    ∀ (a acc : List Char),
      splitWsAux (a ++ ' ' :: b) acc = splitWsAux a acc ++ splitWsAux b [] := by
  intro a
  induction a with
  | nil =>
    intro acc
    simp only [List.nil_append, splitWsAux]
    by_cases hacc : acc = []
    · simp [hacc, splitWsAux]
    · simp [hacc, splitWsAux]
  | cons c rest ih =>
    intro acc
    simp only [List.cons_append, splitWsAux]
    by_cases hws : c.isWhitespace
    · by_cases hacc : acc = [] <;> simp [hws, hacc, ih]
    · simp [hws, ih]

theorem splitWsAux_no_ws :
    ∀ (l acc : List Char), (∀ c ∈ l, c.isWhitespace = false) →
      ¬(l = [] ∧ acc = []) →
      splitWsAux l acc = [acc.reverse ++ l] := by
  intro l
  induction l with
  | nil =>
    intro acc _ hne
    have hacc : acc ≠ [] := fun h => hne ⟨rfl, h⟩
    simp [splitWsAux, hacc]
  | cons c rest ih =>
    intro acc hws _
    have hc : c.isWhitespace = false := hws c (List.mem_cons_self _ _)
    simp only [splitWsAux, hc, Bool.false_eq_true, if_false]
    rw [ih (c :: acc) (fun d hd => hws d (List.mem_cons_of_mem _ hd))
      (by simp)]
    simp

theorem pySplit_join :
    ∀ rv : List String, pySplit (pyJoin rv) = rv.flatMap pySplit := by
  intro rv
  match rv with
  | [] => rfl
  | [x] => simp [pyJoin, List.flatMap]
  | x :: y :: rest =>
    have ih := pySplit_join (y :: rest)
    unfold pyJoin pySplit
    have hdata : (x ++ " " ++ pyJoin (y :: rest)).data =
        x.data ++ ' ' :: (pyJoin (y :: rest)).data := by
      simp [String.data_append]
    rw [hdata, splitWsAux_sep]
    simp only [List.map_append]
    rw [List.flatMap_cons]
    unfold pySplit at ih
    rw [ih]

theorem pyLower_append (s t : String) :
    pyLower (s ++ t) = pyLower s ++ pyLower t := by
  unfold pyLower
  apply String.ext
  simp [String.data_append]

theorem pyLower_join :
    ∀ rv : List String, pyLower (pyJoin rv) = pyJoin (rv.map pyLower) := by
  intro rv
  match rv with
  | [] => rfl
  | [x] => rfl
  | x :: y :: rest =>
    have ih := pyLower_join (y :: rest)
    show pyLower (x ++ " " ++ pyJoin (y :: rest)) = _
    rw [pyLower_append, pyLower_append, ih]
    rfl

theorem digitChar_props {d : Nat} (h : d < 10) :
    (Nat.digitChar d).isDigit = true ∧
    Char.toLower (Nat.digitChar d) = Nat.digitChar d ∧
    (Nat.digitChar d).isWhitespace = false ∧
    (Nat.digitChar d).toNat = d + 48 ∧
    Nat.digitChar d ≠ '-' ∧ Nat.digitChar d ≠ '+' := by
  interval_cases d <;> decide

theorem parseNat_append (a : List Char) (c : Char) :
    parseNat (a ++ [c]) = 10 * parseNat a + (c.toNat - 48) := by
  simp [parseNat, List.foldl_append]

theorem printNat_zero (fuel : Nat) : printNat fuel 0 = [] := by
  cases fuel <;> rfl

theorem printNat_chars :
    ∀ (fuel n : Nat), 0 < n → n ≤ fuel →
      printNat fuel n ≠ [] ∧
      (∀ c ∈ printNat fuel n, ∃ d, d < 10 ∧ c = Nat.digitChar d) ∧
      parseNat (printNat fuel n) = n := by
  intro fuel
  induction fuel with
  | zero => intro n h1 h2; omega
  | succ fuel ih =>
    intro n h1 h2
    obtain ⟨n', rfl⟩ : ∃ n', n = n' + 1 := ⟨n - 1, by omega⟩
    show printNat (fuel + 1) (n' + 1) ≠ [] ∧ _ ∧ _
    have hq : (n' + 1) / 10 < n' + 1 := Nat.div_lt_self (by omega) (by omega)
    have hmod : (n' + 1) % 10 < 10 := Nat.mod_lt _ (by omega)
    unfold printNat
    by_cases hq0 : (n' + 1) / 10 = 0
    · rw [hq0, printNat_zero, List.nil_append]
      refine ⟨by simp, ?_, ?_⟩
      · intro c hc
        rw [List.mem_singleton.mp hc]
        exact ⟨(n' + 1) % 10, hmod, rfl⟩
      · have := (digitChar_props hmod).2.2.2.1
        simp [parseNat, this]
        omega
    · have hrec := ih ((n' + 1) / 10) (by omega) (by omega)
      refine ⟨by simp [hrec.1], ?_, ?_⟩
      · intro c hc
        rcases List.mem_append.mp hc with hc | hc
        · exact hrec.2.1 c hc
        · rw [List.mem_singleton.mp hc]
          exact ⟨(n' + 1) % 10, hmod, rfl⟩
      · rw [parseNat_append, hrec.2.2, (digitChar_props hmod).2.2.2.1]
        omega

theorem natToString_spec (n : Nat) :
    (natToString n).data ≠ [] ∧
    (∀ c ∈ (natToString n).data, ∃ d, d < 10 ∧ c = Nat.digitChar d) ∧
    parseNat ((natToString n).data) = n := by
  unfold natToString
  by_cases h0 : n = 0
  · subst h0
    rw [if_pos rfl]
    refine ⟨by decide, ?_, by decide⟩
    intro c hc
    rw [show ("0" : String).data = ['0'] from rfl] at hc
    rw [List.mem_singleton.mp hc]
    exact ⟨0, by omega, rfl⟩
  · rw [if_neg h0]
    exact printNat_chars n n (by omega) le_rfl

theorem pyInt_natToString (n : Nat) :
    pyInt (natToString n) = some (n : Int) := by
  obtain ⟨hne, hchars, hval⟩ := natToString_spec n
  obtain ⟨c, cs, hdata⟩ := List.exists_cons_of_ne_nil hne
  have hcprops : ∃ d, d < 10 ∧ c = Nat.digitChar d :=
    hchars c (hdata ▸ List.mem_cons_self _ _)
  obtain ⟨d, hd, rfl⟩ := hcprops
  have hdash := (digitChar_props hd).2.2.2.2.1
  have hplus := (digitChar_props hd).2.2.2.2.2
  have halldig : ((Nat.digitChar d :: cs).all Char.isDigit) = true := by
    rw [List.all_eq_true]
    intro x hx
    obtain ⟨e, he, rfl⟩ := hchars x (hdata ▸ hx)
    exact (digitChar_props he).1
  simp only [pyInt, hdata]
  rw [if_neg hdash, if_neg hplus, if_pos halldig, ← hdata, hval]

theorem pyInt_intToString (v : Int) : pyInt (intToString v) = some v := by
  unfold intToString
  by_cases hneg : v < 0
  · rw [if_pos hneg]
    have hdata : ("-" ++ natToString (-v).toNat).data =
        '-' :: (natToString (-v).toNat).data := by
      simp [String.data_append]
    obtain ⟨hne, hchars, hval⟩ := natToString_spec (-v).toNat
    have halldig : ((natToString (-v).toNat).data.all Char.isDigit)
        = true := by
      rw [List.all_eq_true]
      intro x hx
      obtain ⟨e, he, rfl⟩ := hchars x hx
      exact (digitChar_props he).1
    simp only [pyInt, hdata]
    rw [if_pos trivial, if_pos ⟨hne, halldig⟩, hval]
    congr 1
    omega
  · rw [if_neg hneg]
    rw [pyInt_natToString]
    congr 1
    omega

theorem intToString_chars (v : Int) :
    ∀ c ∈ (intToString v).data,
      c = '-' ∨ ∃ d, d < 10 ∧ c = Nat.digitChar d := by
  intro c hc
  unfold intToString at hc
  by_cases hneg : v < 0
  · rw [if_pos hneg] at hc
    have hdata : ("-" ++ natToString (-v).toNat).data =
        '-' :: (natToString (-v).toNat).data := by
      simp [String.data_append]
    rw [hdata] at hc
    rcases List.mem_cons.mp hc with rfl | hc
    · exact Or.inl rfl
    · exact Or.inr ((natToString_spec _).2.1 c hc)
  · rw [if_neg hneg] at hc
    exact Or.inr ((natToString_spec _).2.1 c hc)

theorem intToString_ne_nil (v : Int) : (intToString v).data ≠ [] := by
  unfold intToString
  by_cases hneg : v < 0
  · rw [if_pos hneg]
    simp [String.data_append]
  · rw [if_neg hneg]
    exact (natToString_spec _).1

theorem pyLower_intToString (v : Int) :
    pyLower (intToString v) = intToString v := by
  unfold pyLower
  apply String.ext
  show (intToString v).data.map Char.toLower = (intToString v).data
  refine (List.map_congr_left ?_).trans (List.map_id _)
  intro c hc
  rcases intToString_chars v c hc with rfl | ⟨d, hd, rfl⟩
  · decide
  · exact (digitChar_props hd).2.1

theorem pySplit_intToString (v : Int) :
    pySplit (intToString v) = [intToString v] := by
  unfold pySplit
  rw [splitWsAux_no_ws _ [] ?hws (by simp [intToString_ne_nil v])]
  · simp
  case hws =>
    intro c hc
    rcases intToString_chars v c hc with rfl | ⟨d, hd, rfl⟩
    · decide
    · exact (digitChar_props hd).2.2.1

theorem lookup_eq_none_of_ne (l : List (String × String)) (s : String)
    (h : ∀ p ∈ l, p.1 ≠ s) : l.lookup s = none := by
  induction l with
  | nil => rfl
  | cons p rest ih =>
    obtain ⟨k, v⟩ := p
    have hp : (s == k) = false :=
      beq_eq_false_iff_ne.mpr fun he =>
        h (k, v) (List.mem_cons_self _ _) he.symm
    simp only [List.lookup, hp]
    exact ih fun q hq => h q (List.mem_cons_of_mem _ hq)

theorem intToString_head (v : Int) :
    ∃ c cs, (intToString v).data = c :: cs ∧
      (c = '-' ∨ c.isDigit = true) := by
  obtain ⟨c, cs, hdata⟩ :=
    List.exists_cons_of_ne_nil (intToString_ne_nil v)
  refine ⟨c, cs, hdata, ?_⟩
  have hc := intToString_chars v c (hdata ▸ List.mem_cons_self _ _)
  rcases hc with rfl | ⟨d, hd, rfl⟩
  · exact Or.inl rfl
  · exact Or.inr (digitChar_props hd).1

theorem unit_ne (u : String) (c0 : Char) (hu : u.data.head? = some c0)
    (hc0 : c0 ≠ '-' ∧ c0.isDigit = false) {s : String} {c : Char}
    {cs : List Char} (hs : s.data = c :: cs)
    (hc : c = '-' ∨ c.isDigit = true) : u ≠ s := by
  intro he
  subst he
  rw [hs] at hu
  have hcc : c = c0 := Option.some.inj hu
  subst hcc
  rcases hc with rfl | hdig
  · exact hc0.1 rfl
  · rw [hdig] at hc0
    exact Bool.true_eq_false.mp hc0.2

theorem intervalKey_intToString (v : Int) :
    intervalKey (intToString v) = none := by
  obtain ⟨c, cs, hdata, hc⟩ := intToString_head v
  apply lookup_eq_none_of_ne
  intro p hp
  fin_cases hp <;> exact unit_ne _ _ (by rfl) (by decide) hdata hc

theorem cronKey_intToString (v : Int) :
    cronKey (intToString v) = none := by
  obtain ⟨c, cs, hdata, hc⟩ := intToString_head v
  apply lookup_eq_none_of_ne
  intro p hp
  fin_cases hp <;> exact unit_ne _ _ (by rfl) (by decide) hdata hc

theorem scan_group (isKey : String → Option String)
    (minKey k alTok : String) (hal : isKey alTok = some k) :
    ∀ (vrest : List String) (v0 : String) (acc restToks : List String),
      isKey v0 = none → (∀ t ∈ vrest, isKey t = none) →
      scanTokens isKey minKey (v0 :: (vrest ++ alTok :: restToks)) acc =
        (k, pyJoin (acc ++ v0 :: vrest)) ::
          scanTokens isKey minKey restToks [] := by
  intro vrest
  induction vrest with
  | nil =>
    intro v0 acc restToks hv0 _
    show scanTokens isKey minKey (v0 :: alTok :: restToks) acc = _
    simp [scanTokens, hv0, hal]
  | cons v1 vr ih =>
    intro v0 acc restToks hv0 hvr
    have hv1 : isKey v1 = none := hvr v1 (List.mem_cons_self _ _)
    show scanTokens isKey minKey
      (v0 :: v1 :: (vr ++ alTok :: restToks)) acc = _
    simp only [scanTokens, hv0, hv1]
    rw [ih v1 (acc ++ [v0]) restToks hv1
      (fun t ht => hvr t (List.mem_cons_of_mem _ ht))]
    simp

theorem scan_groups (isKey : String → Option String) (minKey : String) :
    ∀ (gs : List (String × String × List String)),
      (∀ g ∈ gs, isKey g.2.1 = some g.1 ∧ g.2.2 ≠ [] ∧
        ∀ t ∈ g.2.2, isKey t = none) →
      scanTokens isKey minKey (gs.flatMap fun g => g.2.2 ++ [g.2.1]) [] =
        gs.map fun g => (g.1, pyJoin g.2.2) := by
  intro gs
  induction gs with
  | nil => intro _; rfl
  | cons g rest ih =>
    intro h
    obtain ⟨hal, hne, hvals⟩ := h g (List.mem_cons_self _ _)
    obtain ⟨v0, vr, hg⟩ := List.exists_cons_of_ne_nil hne
    rw [List.flatMap_cons, hg]
    have hshape : (v0 :: vr) ++ [g.2.1] ++
        (rest.flatMap fun g => g.2.2 ++ [g.2.1]) =
        v0 :: (vr ++ g.2.1 :: (rest.flatMap fun g => g.2.2 ++ [g.2.1])) := by
      simp
    rw [hshape, scan_group isKey minKey g.1 g.2.1 hal vr v0 [] _
      (hvals v0 (hg ▸ List.mem_cons_self _ _))
      (fun t ht => hvals t (hg ▸ List.mem_cons_of_mem _ ht))]
    rw [ih fun q hq => h q (List.mem_cons_of_mem _ hq)]
    rw [List.map_cons, List.nil_append, ← hg]


/-- One scan group `(canonical key, alias token, value tokens)` for an
integer field. -/
def gInt (k al : String) (v : Option Int) :
    List (String × String × List String) :=
  match v with
  | some n => [(k, al, [intToString n])]
  | none => []

/-- One scan group for a string field. -/
def gStr (k al : String) (v : Option String) :
    List (String × String × List String) :=
  match v with
  | some s => [(k, al, pySplit s)]
  | none => []

/-- One scan group for a cron calendar field. -/
def gCronv (k al : String) (v : Option CronVal) :
    List (String × String × List String) :=
  match v with
  | some (.i n) => [(k, al, [intToString n])]
  | some (.s s) => [(k, al, pySplit s)]
  | none => []

/-- The scan groups of an interval trigger's emitted text. -/
def gsInterval (m : IntervalTrigger) :
    List (String × String × List String) :=
  gInt "weeks" "week" m.weeks ++ gInt "days" "day" m.days ++
  gInt "hours" "hr" m.hours ++ gInt "minutes" "min" m.minutes ++
  gInt "seconds" "sec" m.seconds ++
  gStr "start_date" "start" m.start_date ++
  gStr "end_date" "end" m.end_date ++ gStr "timezone" "z" m.timezone ++
  gInt "jitter" "delay" m.jitter

/-- The scan groups of a cron trigger's emitted text. -/
def gsCron (m : CronTrigger) : List (String × String × List String) :=
  gCronv "year" "year" m.year ++ gCronv "month" "month" m.month ++
  gCronv "day" "day" m.day ++ gCronv "week" "week" m.week ++
  gCronv "day_of_week" "weekday" m.day_of_week ++
  gCronv "hour" "hr" m.hour ++ gCronv "minute" "min" m.minute ++
  gCronv "second" "sec" m.second ++
  gStr "start_date" "start" m.start_date ++
  gStr "end_date" "end" m.end_date ++ gStr "timezone" "z" m.timezone ++
  gInt "jitter" "delay" m.jitter

theorem flat_intTok (k al : String) (v : Option Int)
    (hal : pySplit al = [al]) :
    (intTok v al).flatMap pySplit =
      (gInt k al v).flatMap fun g => g.2.2 ++ [g.2.1] := by
  cases v <;> simp [intTok, gInt, pySplit_intToString, hal]

theorem flat_strTok (k al : String) (v : Option String)
    (hal : pySplit al = [al]) :
    (strTok v al).flatMap pySplit =
      (gStr k al v).flatMap fun g => g.2.2 ++ [g.2.1] := by
  cases v <;> simp [strTok, gStr, hal]

theorem flat_cronvTok (k al : String) (v : Option CronVal)
    (hal : pySplit al = [al]) :
    (cronvTok v al).flatMap pySplit =
      (gCronv k al v).flatMap fun g => g.2.2 ++ [g.2.1] := by
  match v with
  | none => simp [cronvTok, gCronv]
  | some (.i n) => simp [cronvTok, gCronv, pySplit_intToString, hal]
  | some (.s s) => simp [cronvTok, gCronv, hal]


/-- Conditions under which a string field value survives the
lower-split-join round trip of the codec: its whitespace tokenization
is non-empty, re-joins to the value itself (single spaces, no leading
or trailing whitespace), the value is already lowercase, and no token
is a unit or field-name of the grammar. -/
def goodVal (isKey : String → Option String) (s : String) : Prop :=
  pySplit s ≠ [] ∧ pyJoin (pySplit s) = s ∧ pyLower s = s ∧
  ∀ t ∈ pySplit s, isKey t = none

instance (isKey : String → Option String) (s : String) :
    Decidable (goodVal isKey s) := by
  unfold goodVal
  infer_instance

/-- `goodVal` lifted to an optional string field. -/
def goodOpt (isKey : String → Option String) : Option String → Prop
  | some s => goodVal isKey s
  | none => True

instance (isKey : String → Option String) (o : Option String) :
    Decidable (goodOpt isKey o) :=
  match o with
  | none => isTrue trivial
  | some s => inferInstanceAs (Decidable (goodVal isKey s))

/-- A cron calendar field round-trips only when it holds a good string
value (an int comes back as its decimal string). -/
def goodCronOpt (isKey : String → Option String) : Option CronVal → Prop
  | some (.i _) => False
  | some (.s s) => goodVal isKey s
  | none => True

instance (isKey : String → Option String) (o : Option CronVal) :
    Decidable (goodCronOpt isKey o) :=
  match o with
  | none => isTrue trivial
  | some (.i _) => isFalse id
  | some (.s s) => inferInstanceAs (Decidable (goodVal isKey s))

theorem goodOpt_join {isKey : String → Option String} {v : Option String}
    (h : goodOpt isKey v) :
    ∀ s, v = some s → pyJoin (pySplit s) = s := by
  intro s hs
  subst hs
  exact h.2.1

theorem goodCronOpt_join {isKey : String → Option String}
    {v : Option CronVal} (h : goodCronOpt isKey v) :
    ∀ s, v = some (.s s) → pyJoin (pySplit s) = s := by
  intro s hs
  subst hs
  exact h.2.1

theorem goodCronOpt_noInt {isKey : String → Option String}
    {v : Option CronVal} (h : goodCronOpt isKey v) :
    ∀ n, v ≠ some (.i n) := by
  intro n hn
  subst hn
  exact h

theorem pyJoin_single (x : String) : pyJoin [x] = x := rfl

theorem good_gInt (isKey : String → Option String) {k al : String}
    (v : Option Int) (hal : isKey al = some k)
    (hv : ∀ n : Int, isKey (intToString n) = none) :
    ∀ g ∈ gInt k al v, isKey g.2.1 = some g.1 ∧ g.2.2 ≠ [] ∧
      ∀ t ∈ g.2.2, isKey t = none := by
  cases v with
  | none => intro g hg; cases hg
  | some n =>
    intro g hg
    rw [List.mem_singleton.mp hg]
    refine ⟨hal, by simp, ?_⟩
    intro t ht
    rw [List.mem_singleton.mp ht]
    exact hv n

theorem good_gStr (isKey : String → Option String) {k al : String}
    (v : Option String) (hal : isKey al = some k)
    (hv : goodOpt isKey v) :
    ∀ g ∈ gStr k al v, isKey g.2.1 = some g.1 ∧ g.2.2 ≠ [] ∧
      ∀ t ∈ g.2.2, isKey t = none := by
  cases v with
  | none => intro g hg; cases hg
  | some s =>
    intro g hg
    rw [List.mem_singleton.mp hg]
    exact ⟨hal, hv.1, hv.2.2.2⟩

theorem good_gCronv (isKey : String → Option String) {k al : String}
    (v : Option CronVal) (hal : isKey al = some k)
    (hv : goodCronOpt isKey v) :
    ∀ g ∈ gCronv k al v, isKey g.2.1 = some g.1 ∧ g.2.2 ≠ [] ∧
      ∀ t ∈ g.2.2, isKey t = none := by
  match v with
  | none => intro g hg; cases hg
  | some (.i n) => exact hv.elim
  | some (.s s) =>
    intro g hg
    rw [List.mem_singleton.mp hg]
    exact ⟨hal, hv.1, hv.2.2.2⟩

theorem apInt_weeks (m' : IntervalTrigger) (v : Option Int)
    (rest : List (String × String)) :
    applyInterval m' (((gInt "weeks" "week" v).map fun g =>
      (g.1, pyJoin g.2.2)) ++ rest) =
    applyInterval { m' with weeks := v <|> m'.weeks } rest := by
  cases v with
  | none => simp [gInt]
  | some n => simp [gInt, applyInterval, pyJoin_single, pyInt_intToString]

theorem apInt_days (m' : IntervalTrigger) (v : Option Int)
    (rest : List (String × String)) :
    applyInterval m' (((gInt "days" "day" v).map fun g =>
      (g.1, pyJoin g.2.2)) ++ rest) =
    applyInterval { m' with days := v <|> m'.days } rest := by
  cases v with
  | none => simp [gInt]
  | some n => simp [gInt, applyInterval, pyJoin_single, pyInt_intToString]

theorem apInt_hours (m' : IntervalTrigger) (v : Option Int)
    (rest : List (String × String)) :
    applyInterval m' (((gInt "hours" "hr" v).map fun g =>
      (g.1, pyJoin g.2.2)) ++ rest) =
    applyInterval { m' with hours := v <|> m'.hours } rest := by
  cases v with
  | none => simp [gInt]
  | some n => simp [gInt, applyInterval, pyJoin_single, pyInt_intToString]

theorem apInt_minutes (m' : IntervalTrigger) (v : Option Int)
    (rest : List (String × String)) :
    applyInterval m' (((gInt "minutes" "min" v).map fun g =>
      (g.1, pyJoin g.2.2)) ++ rest) =
    applyInterval { m' with minutes := v <|> m'.minutes } rest := by
  cases v with
  | none => simp [gInt]
  | some n => simp [gInt, applyInterval, pyJoin_single, pyInt_intToString]

theorem apInt_seconds (m' : IntervalTrigger) (v : Option Int)
    (rest : List (String × String)) :
    applyInterval m' (((gInt "seconds" "sec" v).map fun g =>
      (g.1, pyJoin g.2.2)) ++ rest) =
    applyInterval { m' with seconds := v <|> m'.seconds } rest := by
  cases v with
  | none => simp [gInt]
  | some n => simp [gInt, applyInterval, pyJoin_single, pyInt_intToString]

theorem apStr_start_date (m' : IntervalTrigger) (v : Option String)
    (rest : List (String × String))
    (hjoin : ∀ s, v = some s → pyJoin (pySplit s) = s) :
    applyInterval m' (((gStr "start_date" "start" v).map fun g =>
      (g.1, pyJoin g.2.2)) ++ rest) =
    applyInterval { m' with start_date := v <|> m'.start_date } rest := by
  cases v with
  | none => simp [gStr]
  | some s =>
    have h := hjoin s rfl
    simp [gStr, applyInterval, h]

theorem apStr_end_date (m' : IntervalTrigger) (v : Option String)
    (rest : List (String × String))
    (hjoin : ∀ s, v = some s → pyJoin (pySplit s) = s) :
    applyInterval m' (((gStr "end_date" "end" v).map fun g =>
      (g.1, pyJoin g.2.2)) ++ rest) =
    applyInterval { m' with end_date := v <|> m'.end_date } rest := by
  cases v with
  | none => simp [gStr]
  | some s =>
    have h := hjoin s rfl
    simp [gStr, applyInterval, h]

theorem apStr_timezone (m' : IntervalTrigger) (v : Option String)
    (rest : List (String × String))
    (hjoin : ∀ s, v = some s → pyJoin (pySplit s) = s) :
    applyInterval m' (((gStr "timezone" "z" v).map fun g =>
      (g.1, pyJoin g.2.2)) ++ rest) =
    applyInterval { m' with timezone := v <|> m'.timezone } rest := by
  cases v with
  | none => simp [gStr]
  | some s =>
    have h := hjoin s rfl
    simp [gStr, applyInterval, h]

theorem apInt_jitter (m' : IntervalTrigger) (v : Option Int)
    (rest : List (String × String)) :
    applyInterval m' (((gInt "jitter" "delay" v).map fun g =>
      (g.1, pyJoin g.2.2)) ++ rest) =
    applyInterval { m' with jitter := v <|> m'.jitter } rest := by
  cases v with
  | none => simp [gInt]
  | some n => simp [gInt, applyInterval, pyJoin_single, pyInt_intToString]

theorem apCronv_year (m' : CronTrigger) (v : Option CronVal)
    (rest : List (String × String))
    (hjoin : ∀ s, v = some (.s s) → pyJoin (pySplit s) = s)
    (hnoti : ∀ n, v ≠ some (.i n)) :
    applyCron m' (((gCronv "year" "year" v).map fun g =>
      (g.1, pyJoin g.2.2)) ++ rest) =
    applyCron { m' with year := v <|> m'.year } rest := by
  match v with
  | none => simp [gCronv]
  | some (.i n) => exact absurd rfl (hnoti n)
  | some (.s s) =>
    have h := hjoin s rfl
    simp [gCronv, applyCron, h]

theorem apCronv_month (m' : CronTrigger) (v : Option CronVal)
    (rest : List (String × String))
    (hjoin : ∀ s, v = some (.s s) → pyJoin (pySplit s) = s)
    (hnoti : ∀ n, v ≠ some (.i n)) :
    applyCron m' (((gCronv "month" "month" v).map fun g =>
      (g.1, pyJoin g.2.2)) ++ rest) =
    applyCron { m' with month := v <|> m'.month } rest := by
  match v with
  | none => simp [gCronv]
  | some (.i n) => exact absurd rfl (hnoti n)
  | some (.s s) =>
    have h := hjoin s rfl
    simp [gCronv, applyCron, h]

theorem apCronv_day (m' : CronTrigger) (v : Option CronVal)
    (rest : List (String × String))
    (hjoin : ∀ s, v = some (.s s) → pyJoin (pySplit s) = s)
    (hnoti : ∀ n, v ≠ some (.i n)) :
    applyCron m' (((gCronv "day" "day" v).map fun g =>
      (g.1, pyJoin g.2.2)) ++ rest) =
    applyCron { m' with day := v <|> m'.day } rest := by
  match v with
  | none => simp [gCronv]
  | some (.i n) => exact absurd rfl (hnoti n)
  | some (.s s) =>
    have h := hjoin s rfl
    simp [gCronv, applyCron, h]

theorem apCronv_week (m' : CronTrigger) (v : Option CronVal)
    (rest : List (String × String))
    (hjoin : ∀ s, v = some (.s s) → pyJoin (pySplit s) = s)
    (hnoti : ∀ n, v ≠ some (.i n)) :
    applyCron m' (((gCronv "week" "week" v).map fun g =>
      (g.1, pyJoin g.2.2)) ++ rest) =
    applyCron { m' with week := v <|> m'.week } rest := by
  match v with
  | none => simp [gCronv]
  | some (.i n) => exact absurd rfl (hnoti n)
  | some (.s s) =>
    have h := hjoin s rfl
    simp [gCronv, applyCron, h]

theorem apCronv_day_of_week (m' : CronTrigger) (v : Option CronVal)
    (rest : List (String × String))
    (hjoin : ∀ s, v = some (.s s) → pyJoin (pySplit s) = s)
    (hnoti : ∀ n, v ≠ some (.i n)) :
    applyCron m' (((gCronv "day_of_week" "weekday" v).map fun g =>
      (g.1, pyJoin g.2.2)) ++ rest) =
    applyCron { m' with day_of_week := v <|> m'.day_of_week } rest := by
  match v with
  | none => simp [gCronv]
  | some (.i n) => exact absurd rfl (hnoti n)
  | some (.s s) =>
    have h := hjoin s rfl
    simp [gCronv, applyCron, h]

theorem apCronv_hour (m' : CronTrigger) (v : Option CronVal)
    (rest : List (String × String))
    (hjoin : ∀ s, v = some (.s s) → pyJoin (pySplit s) = s)
    (hnoti : ∀ n, v ≠ some (.i n)) :
    applyCron m' (((gCronv "hour" "hr" v).map fun g =>
      (g.1, pyJoin g.2.2)) ++ rest) =
    applyCron { m' with hour := v <|> m'.hour } rest := by
  match v with
  | none => simp [gCronv]
  | some (.i n) => exact absurd rfl (hnoti n)
  | some (.s s) =>
    have h := hjoin s rfl
    simp [gCronv, applyCron, h]

theorem apCronv_minute (m' : CronTrigger) (v : Option CronVal)
    (rest : List (String × String))
    (hjoin : ∀ s, v = some (.s s) → pyJoin (pySplit s) = s)
    (hnoti : ∀ n, v ≠ some (.i n)) :
    applyCron m' (((gCronv "minute" "min" v).map fun g =>
      (g.1, pyJoin g.2.2)) ++ rest) =
    applyCron { m' with minute := v <|> m'.minute } rest := by
  match v with
  | none => simp [gCronv]
  | some (.i n) => exact absurd rfl (hnoti n)
  | some (.s s) =>
    have h := hjoin s rfl
    simp [gCronv, applyCron, h]

theorem apCronv_second (m' : CronTrigger) (v : Option CronVal)
    (rest : List (String × String))
    (hjoin : ∀ s, v = some (.s s) → pyJoin (pySplit s) = s)
    (hnoti : ∀ n, v ≠ some (.i n)) :
    applyCron m' (((gCronv "second" "sec" v).map fun g =>
      (g.1, pyJoin g.2.2)) ++ rest) =
    applyCron { m' with second := v <|> m'.second } rest := by
  match v with
  | none => simp [gCronv]
  | some (.i n) => exact absurd rfl (hnoti n)
  | some (.s s) =>
    have h := hjoin s rfl
    simp [gCronv, applyCron, h]

theorem apCronStr_start_date (m' : CronTrigger) (v : Option String)
    (rest : List (String × String))
    (hjoin : ∀ s, v = some s → pyJoin (pySplit s) = s) :
    applyCron m' (((gStr "start_date" "start" v).map fun g =>
      (g.1, pyJoin g.2.2)) ++ rest) =
    applyCron { m' with start_date := v <|> m'.start_date } rest := by
  cases v with
  | none => simp [gStr]
  | some s =>
    have h := hjoin s rfl
    simp [gStr, applyCron, h]

theorem apCronStr_end_date (m' : CronTrigger) (v : Option String)
    (rest : List (String × String))
    (hjoin : ∀ s, v = some s → pyJoin (pySplit s) = s) :
    applyCron m' (((gStr "end_date" "end" v).map fun g =>
      (g.1, pyJoin g.2.2)) ++ rest) =
    applyCron { m' with end_date := v <|> m'.end_date } rest := by
  cases v with
  | none => simp [gStr]
  | some s =>
    have h := hjoin s rfl
    simp [gStr, applyCron, h]

theorem apCronStr_timezone (m' : CronTrigger) (v : Option String)
    (rest : List (String × String))
    (hjoin : ∀ s, v = some s → pyJoin (pySplit s) = s) :
    applyCron m' (((gStr "timezone" "z" v).map fun g =>
      (g.1, pyJoin g.2.2)) ++ rest) =
    applyCron { m' with timezone := v <|> m'.timezone } rest := by
  cases v with
  | none => simp [gStr]
  | some s =>
    have h := hjoin s rfl
    simp [gStr, applyCron, h]

theorem apCron_jitter (m' : CronTrigger) (v : Option Int)
    (rest : List (String × String)) :
    applyCron m' (((gInt "jitter" "delay" v).map fun g =>
      (g.1, pyJoin g.2.2)) ++ rest) =
    applyCron { m' with jitter := v <|> m'.jitter } rest := by
  cases v with
  | none => simp [gInt]
  | some n => simp [gInt, applyCron, pyJoin_single, pyInt_intToString]


theorem lower_intTok (v : Option Int) (al : String)
    (hal : pyLower al = al) :
    ∀ tok ∈ intTok v al, pyLower tok = tok := by
  cases v with
  | none => intro tok htok; cases htok
  | some n =>
    intro tok htok
    rcases List.mem_cons.mp htok with rfl | htok
    · exact pyLower_intToString n
    · rw [List.mem_singleton.mp htok]
      exact hal

theorem lower_strTok (v : Option String) (al : String)
    (hal : pyLower al = al)
    (hv : ∀ s, v = some s → pyLower s = s) :
    ∀ tok ∈ strTok v al, pyLower tok = tok := by
  cases v with
  | none => intro tok htok; cases htok
  | some s =>
    intro tok htok
    rcases List.mem_cons.mp htok with rfl | htok
    · exact hv tok rfl
    · rw [List.mem_singleton.mp htok]
      exact hal

theorem lower_cronvTok (v : Option CronVal) (al : String)
    (hal : pyLower al = al)
    (hv : ∀ s, v = some (.s s) → pyLower s = s) :
    ∀ tok ∈ cronvTok v al, pyLower tok = tok := by
  match v with
  | none => intro tok htok; cases htok
  | some (.i n) =>
    intro tok htok
    rcases List.mem_cons.mp htok with rfl | htok
    · exact pyLower_intToString n
    · rw [List.mem_singleton.mp htok]
      exact hal
  | some (.s s) =>
    intro tok htok
    rcases List.mem_cons.mp htok with rfl | htok
    · exact hv tok rfl
    · rw [List.mem_singleton.mp htok]
      exact hal

theorem pyJoin_cons_ne (x : String) (l : List String)
    (hx : x.data ≠ []) : pyJoin (x :: l) ≠ "" := by
  intro he
  have hd : (pyJoin (x :: l)).data = [] := by rw [he]
  cases l with
  | nil => exact hx hd
  | cons y rest =>
    rw [show pyJoin (x :: y :: rest) = x ++ " " ++ pyJoin (y :: rest)
      from rfl] at hd
    simp [String.data_append] at hd

theorem goodOpt_lower {isKey : String → Option String} {v : Option String}
    (h : goodOpt isKey v) : ∀ s, v = some s → pyLower s = s := by
  intro s hs
  subst hs
  exact h.2.2.1

theorem goodCronOpt_lower {isKey : String → Option String}
    {v : Option CronVal} (h : goodCronOpt isKey v) :
    ∀ s, v = some (.s s) → pyLower s = s := by
  intro s hs
  subst hs
  exact h.2.2.1



theorem apInt_jitter_last (m' : IntervalTrigger) (v : Option Int) :
    applyInterval m' ((gInt "jitter" "delay" v).map fun g =>
      (g.1, pyJoin g.2.2)) = some { m' with jitter := v <|> m'.jitter } := by
  cases v with
  | none => exact rfl
  | some n => simp [gInt, applyInterval, pyJoin_single, pyInt_intToString]

theorem apCron_jitter_last (m' : CronTrigger) (v : Option Int) :
    applyCron m' ((gInt "jitter" "delay" v).map fun g =>
      (g.1, pyJoin g.2.2)) = some { m' with jitter := v <|> m'.jitter } := by
  cases v with
  | none => exact rfl
  | some n => simp [gInt, applyCron, pyJoin_single, pyInt_intToString]

theorem good_gsInterval (m : IntervalTrigger)
    (h1 : goodOpt intervalKey m.start_date)
    (h2 : goodOpt intervalKey m.end_date)
    (h3 : goodOpt intervalKey m.timezone) :
    ∀ g ∈ gsInterval m, intervalKey g.2.1 = some g.1 ∧ g.2.2 ≠ [] ∧
      ∀ t ∈ g.2.2, intervalKey t = none := by
  intro g hg
  unfold gsInterval at hg
  simp only [List.mem_append, or_assoc] at hg
  rcases hg with hg | hg | hg | hg | hg | hg | hg | hg | hg
  · exact good_gInt intervalKey m.weeks (by rfl) intervalKey_intToString g hg
  · exact good_gInt intervalKey m.days (by rfl) intervalKey_intToString g hg
  · exact good_gInt intervalKey m.hours (by rfl) intervalKey_intToString g hg
  · exact good_gInt intervalKey m.minutes (by rfl) intervalKey_intToString g hg
  · exact good_gInt intervalKey m.seconds (by rfl) intervalKey_intToString g hg
  · exact good_gStr _ m.start_date (by rfl) h1 g hg
  · exact good_gStr _ m.end_date (by rfl) h2 g hg
  · exact good_gStr _ m.timezone (by rfl) h3 g hg
  · exact good_gInt intervalKey m.jitter (by rfl) intervalKey_intToString g hg

theorem good_gsCron (m : CronTrigger)
    (hy : goodCronOpt cronKey m.year) (hmo : goodCronOpt cronKey m.month)
    (hd : goodCronOpt cronKey m.day) (hw : goodCronOpt cronKey m.week)
    (hdw : goodCronOpt cronKey m.day_of_week)
    (hh : goodCronOpt cronKey m.hour) (hmi : goodCronOpt cronKey m.minute)
    (hs : goodCronOpt cronKey m.second)
    (h1 : goodOpt cronKey m.start_date) (h2 : goodOpt cronKey m.end_date)
    (h3 : goodOpt cronKey m.timezone) :
    ∀ g ∈ gsCron m, cronKey g.2.1 = some g.1 ∧ g.2.2 ≠ [] ∧
      ∀ t ∈ g.2.2, cronKey t = none := by
  intro g hg
  unfold gsCron at hg
  simp only [List.mem_append, or_assoc] at hg
  rcases hg with hg | hg | hg | hg | hg | hg | hg | hg | hg | hg | hg | hg
  · exact good_gCronv _ m.year (by rfl) hy g hg
  · exact good_gCronv _ m.month (by rfl) hmo g hg
  · exact good_gCronv _ m.day (by rfl) hd g hg
  · exact good_gCronv _ m.week (by rfl) hw g hg
  · exact good_gCronv _ m.day_of_week (by rfl) hdw g hg
  · exact good_gCronv _ m.hour (by rfl) hh g hg
  · exact good_gCronv _ m.minute (by rfl) hmi g hg
  · exact good_gCronv _ m.second (by rfl) hs g hg
  · exact good_gStr _ m.start_date (by rfl) h1 g hg
  · exact good_gStr _ m.end_date (by rfl) h2 g hg
  · exact good_gStr _ m.timezone (by rfl) h3 g hg
  · exact good_gInt cronKey m.jitter (by rfl) cronKey_intToString g hg

theorem flat_gsInterval (m : IntervalTrigger) :
    (intervalTokens m).flatMap pySplit =
      (gsInterval m).flatMap fun g => g.2.2 ++ [g.2.1] := by
  unfold intervalTokens gsInterval
  simp only [List.flatMap_append]
  rw [flat_intTok "weeks" "week" m.weeks rfl,
    flat_intTok "days" "day" m.days rfl,
    flat_intTok "hours" "hr" m.hours rfl,
    flat_intTok "minutes" "min" m.minutes rfl,
    flat_intTok "seconds" "sec" m.seconds rfl,
    flat_strTok "start_date" "start" m.start_date rfl,
    flat_strTok "end_date" "end" m.end_date rfl,
    flat_strTok "timezone" "z" m.timezone rfl,
    flat_intTok "jitter" "delay" m.jitter rfl]

theorem flat_gsCron (m : CronTrigger) :
    (cronTokens m).flatMap pySplit =
      (gsCron m).flatMap fun g => g.2.2 ++ [g.2.1] := by
  unfold cronTokens gsCron
  simp only [List.flatMap_append]
  rw [flat_cronvTok "year" "year" m.year rfl,
    flat_cronvTok "month" "month" m.month rfl,
    flat_cronvTok "day" "day" m.day rfl,
    flat_cronvTok "week" "week" m.week rfl,
    flat_cronvTok "day_of_week" "weekday" m.day_of_week rfl,
    flat_cronvTok "hour" "hr" m.hour rfl,
    flat_cronvTok "minute" "min" m.minute rfl,
    flat_cronvTok "second" "sec" m.second rfl,
    flat_strTok "start_date" "start" m.start_date rfl,
    flat_strTok "end_date" "end" m.end_date rfl,
    flat_strTok "timezone" "z" m.timezone rfl,
    flat_intTok "jitter" "delay" m.jitter rfl]

theorem lower_intervalTokens (m : IntervalTrigger)
    (h1 : goodOpt intervalKey m.start_date)
    (h2 : goodOpt intervalKey m.end_date)
    (h3 : goodOpt intervalKey m.timezone) :
    ∀ tok ∈ intervalTokens m, pyLower tok = tok := by
  intro tok htok
  unfold intervalTokens at htok
  simp only [List.mem_append, or_assoc] at htok
  rcases htok with ht | ht | ht | ht | ht | ht | ht | ht | ht
  · exact lower_intTok m.weeks "week" rfl tok ht
  · exact lower_intTok m.days "day" rfl tok ht
  · exact lower_intTok m.hours "hr" rfl tok ht
  · exact lower_intTok m.minutes "min" rfl tok ht
  · exact lower_intTok m.seconds "sec" rfl tok ht
  · exact lower_strTok m.start_date "start" rfl (goodOpt_lower h1) tok ht
  · exact lower_strTok m.end_date "end" rfl (goodOpt_lower h2) tok ht
  · exact lower_strTok m.timezone "z" rfl (goodOpt_lower h3) tok ht
  · exact lower_intTok m.jitter "delay" rfl tok ht

theorem lower_cronTokens (m : CronTrigger)
    (hy : goodCronOpt cronKey m.year) (hmo : goodCronOpt cronKey m.month)
    (hd : goodCronOpt cronKey m.day) (hw : goodCronOpt cronKey m.week)
    (hdw : goodCronOpt cronKey m.day_of_week)
    (hh : goodCronOpt cronKey m.hour) (hmi : goodCronOpt cronKey m.minute)
    (hs : goodCronOpt cronKey m.second)
    (h1 : goodOpt cronKey m.start_date) (h2 : goodOpt cronKey m.end_date)
    (h3 : goodOpt cronKey m.timezone) :
    ∀ tok ∈ cronTokens m, pyLower tok = tok := by
  intro tok htok
  unfold cronTokens at htok
  simp only [List.mem_append, or_assoc] at htok
  rcases htok with ht | ht | ht | ht | ht | ht | ht | ht | ht | ht | ht | ht
  · exact lower_cronvTok m.year "year" rfl (goodCronOpt_lower hy) tok ht
  · exact lower_cronvTok m.month "month" rfl (goodCronOpt_lower hmo) tok ht
  · exact lower_cronvTok m.day "day" rfl (goodCronOpt_lower hd) tok ht
  · exact lower_cronvTok m.week "week" rfl (goodCronOpt_lower hw) tok ht
  · exact lower_cronvTok m.day_of_week "weekday" rfl
      (goodCronOpt_lower hdw) tok ht
  · exact lower_cronvTok m.hour "hr" rfl (goodCronOpt_lower hh) tok ht
  · exact lower_cronvTok m.minute "min" rfl (goodCronOpt_lower hmi) tok ht
  · exact lower_cronvTok m.second "sec" rfl (goodCronOpt_lower hs) tok ht
  · exact lower_strTok m.start_date "start" rfl (goodOpt_lower h1) tok ht
  · exact lower_strTok m.end_date "end" rfl (goodOpt_lower h2) tok ht
  · exact lower_strTok m.timezone "z" rfl (goodOpt_lower h3) tok ht
  · exact lower_intTok m.jitter "delay" rfl tok ht

theorem applyInterval_nil (m : IntervalTrigger) :
    applyInterval m [] = some m := rfl

theorem applyCron_nil (m : CronTrigger) : applyCron m [] = some m := rfl

theorem applyInterval_gs (m : IntervalTrigger)
    (h1 : goodOpt intervalKey m.start_date)
    (h2 : goodOpt intervalKey m.end_date)
    (h3 : goodOpt intervalKey m.timezone) :
    applyInterval {} ((gsInterval m).map fun g => (g.1, pyJoin g.2.2)) =
      some m := by
  unfold gsInterval
  simp only [List.map_append, List.append_assoc]
  rw [apInt_weeks, apInt_days, apInt_hours, apInt_minutes, apInt_seconds,
    apStr_start_date _ _ _ (goodOpt_join h1),
    apStr_end_date _ _ _ (goodOpt_join h2),
    apStr_timezone _ _ _ (goodOpt_join h3), apInt_jitter_last]
  simp only [Option.orElse_none]

theorem applyCron_gs (m : CronTrigger)
    (hy : goodCronOpt cronKey m.year) (hmo : goodCronOpt cronKey m.month)
    (hd : goodCronOpt cronKey m.day) (hw : goodCronOpt cronKey m.week)
    (hdw : goodCronOpt cronKey m.day_of_week)
    (hh : goodCronOpt cronKey m.hour) (hmi : goodCronOpt cronKey m.minute)
    (hs : goodCronOpt cronKey m.second)
    (h1 : goodOpt cronKey m.start_date) (h2 : goodOpt cronKey m.end_date)
    (h3 : goodOpt cronKey m.timezone) :
    applyCron {} ((gsCron m).map fun g => (g.1, pyJoin g.2.2)) =
      some m := by
  unfold gsCron
  simp only [List.map_append, List.append_assoc]
  rw [apCronv_year _ _ _ (goodCronOpt_join hy) (goodCronOpt_noInt hy),
    apCronv_month _ _ _ (goodCronOpt_join hmo) (goodCronOpt_noInt hmo),
    apCronv_day _ _ _ (goodCronOpt_join hd) (goodCronOpt_noInt hd),
    apCronv_week _ _ _ (goodCronOpt_join hw) (goodCronOpt_noInt hw),
    apCronv_day_of_week _ _ _ (goodCronOpt_join hdw)
      (goodCronOpt_noInt hdw),
    apCronv_hour _ _ _ (goodCronOpt_join hh) (goodCronOpt_noInt hh),
    apCronv_minute _ _ _ (goodCronOpt_join hmi) (goodCronOpt_noInt hmi),
    apCronv_second _ _ _ (goodCronOpt_join hs) (goodCronOpt_noInt hs),
    apCronStr_start_date _ _ _ (goodOpt_join h1),
    apCronStr_end_date _ _ _ (goodOpt_join h2),
    apCronStr_timezone _ _ _ (goodOpt_join h3), apCron_jitter_last]
  simp only [Option.orElse_none]


theorem parseTokens_interval (accept : Trigger → Bool)
    (rest : List String) :
    parseTokens accept "interval" rest = parseIntervalToks accept rest :=
  rfl

theorem parseTokens_cron (accept : Trigger → Bool) (rest : List String) :
    parseTokens accept "cron" rest = parseCronToks accept rest :=
  rfl

theorem roundtrip_interval (accept : Trigger → Bool) (m : IntervalTrigger)
    (hacc : accept (.interval m) = true)
    (h1 : goodOpt intervalKey m.start_date)
    (h2 : goodOpt intervalKey m.end_date)
    (h3 : goodOpt intervalKey m.timezone) :
    text2Trigger accept (trigger2Text (.interval m)) =
      some (.interval m) := by
  have hT : trigger2Text (.interval m) =
      pyJoin ("interval" :: intervalTokens m) := rfl
  rw [hT]
  unfold text2Trigger
  rw [if_neg (pyJoin_cons_ne _ _ (by decide))]
  have hlowtoks : ("interval" :: intervalTokens m).map pyLower =
      "interval" :: intervalTokens m := by
    refine (List.map_congr_left ?_).trans (List.map_id _)
    intro tok htok
    rcases List.mem_cons.mp htok with rfl | htok
    · rfl
    · exact lower_intervalTokens m h1 h2 h3 tok htok
  rw [pyLower_join, hlowtoks, pySplit_join, List.flatMap_cons,
    show pySplit "interval" = ["interval"] from rfl]
  show parseTokens accept "interval" ((intervalTokens m).flatMap pySplit)
    = some (.interval m)
  rw [parseTokens_interval, flat_gsInterval]
  unfold parseIntervalToks
  rw [scan_groups intervalKey "minutes" (gsInterval m)
    (good_gsInterval m h1 h2 h3), applyInterval_gs m h1 h2 h3]
  show (if accept (Trigger.interval m) then some (Trigger.interval m)
    else none) = some (Trigger.interval m)
  rw [if_pos hacc]

theorem roundtrip_cron (accept : Trigger → Bool) (m : CronTrigger)
    (hacc : accept (.cron m) = true)
    (hy : goodCronOpt cronKey m.year) (hmo : goodCronOpt cronKey m.month)
    (hd : goodCronOpt cronKey m.day) (hw : goodCronOpt cronKey m.week)
    (hdw : goodCronOpt cronKey m.day_of_week)
    (hh : goodCronOpt cronKey m.hour) (hmi : goodCronOpt cronKey m.minute)
    (hs : goodCronOpt cronKey m.second)
    (h1 : goodOpt cronKey m.start_date) (h2 : goodOpt cronKey m.end_date)
    (h3 : goodOpt cronKey m.timezone) :
    text2Trigger accept (trigger2Text (.cron m)) = some (.cron m) := by
  have hT : trigger2Text (.cron m) = pyJoin ("cron" :: cronTokens m) := rfl
  rw [hT]
  unfold text2Trigger
  rw [if_neg (pyJoin_cons_ne _ _ (by decide))]
  have hlowtoks : ("cron" :: cronTokens m).map pyLower =
      "cron" :: cronTokens m := by
    refine (List.map_congr_left ?_).trans (List.map_id _)
    intro tok htok
    rcases List.mem_cons.mp htok with rfl | htok
    · rfl
    · exact lower_cronTokens m hy hmo hd hw hdw hh hmi hs h1 h2 h3 tok htok
  rw [pyLower_join, hlowtoks, pySplit_join, List.flatMap_cons,
    show pySplit "cron" = ["cron"] from rfl]
  show parseTokens accept "cron" ((cronTokens m).flatMap pySplit)
    = some (.cron m)
  rw [parseTokens_cron, flat_gsCron]
  unfold parseCronToks
  rw [scan_groups cronKey "minute" (gsCron m)
    (good_gsCron m hy hmo hd hw hdw hh hmi hs h1 h2 h3),
    applyCron_gs m hy hmo hd hw hdw hh hmi hs h1 h2 h3]
  show (if accept (Trigger.cron m) then some (Trigger.cron m)
    else none) = some (Trigger.cron m)
  rw [if_pos hacc]

/-- The round-trip conditions on a structured trigger: string-valued
fields are good values for the grammar's key map, and cron calendar
fields hold string values. -/
def triggerGood : Trigger → Prop
  | .interval m => goodOpt intervalKey m.start_date ∧
      goodOpt intervalKey m.end_date ∧ goodOpt intervalKey m.timezone
  | .cron m => goodCronOpt cronKey m.year ∧ goodCronOpt cronKey m.month ∧
      goodCronOpt cronKey m.day ∧ goodCronOpt cronKey m.week ∧
      goodCronOpt cronKey m.day_of_week ∧ goodCronOpt cronKey m.hour ∧
      goodCronOpt cronKey m.minute ∧ goodCronOpt cronKey m.second ∧
      goodOpt cronKey m.start_date ∧ goodOpt cronKey m.end_date ∧
      goodOpt cronKey m.timezone

instance : ∀ t : Trigger, Decidable (triggerGood t)
  | .interval _ => inferInstanceAs (Decidable (_ ∧ _ ∧ _))
  | .cron _ => inferInstanceAs (Decidable
      (_ ∧ _ ∧ _ ∧ _ ∧ _ ∧ _ ∧ _ ∧ _ ∧ _ ∧ _ ∧ _))


/-- A cron trigger holding an int calendar value. -/
def exCronMin5 : Trigger := .cron { minute := some (.i 5) }

/-- C5 fails on the code as stated: a cron trigger with the int value
`5` in `minute` is accepted by the scheduler's cron constructor, but
`text2Trigger` coerces only `_INTTRIGKEYS` fields with `int()`, so the
value comes back as the string `"5"` — whatever the constructor model
accepts, the round trip cannot return the original trigger. -/
theorem C5_counterexample :
    trigger2Text exCronMin5 = "cron 5 min" ∧
    text2Trigger (fun _ => true) (trigger2Text exCronMin5) =
      some (.cron { minute := some (.s "5") }) ∧
    text2Trigger (fun _ => false) (trigger2Text exCronMin5) = none ∧
    Trigger.cron { minute := some (.s "5") } ≠ exCronMin5 := by
  refine ⟨rfl, rfl, rfl, by decide⟩

/-- C5 amended: `text2Trigger(trigger2Text(t)) = t` for every
structured trigger `t` accepted by the scheduler's constructor
(`accept t = true`) whose string-valued fields are non-empty lowercase
values that re-join from their whitespace tokens with single spaces
and contain no grammar unit token, and whose cron calendar fields hold
string (not int) values. -/
theorem C5_roundtrip (accept : Trigger → Bool) (t : Trigger)
    (hacc : accept t = true) (hgood : triggerGood t) :
    text2Trigger accept (trigger2Text t) = some t := by
  cases t with
  | interval m =>
    exact roundtrip_interval accept m hacc hgood.1 hgood.2.1 hgood.2.2
  | cron m =>
    obtain ⟨hy, hmo, hd, hw, hdw, hh, hmi, hs, h1, h2, h3⟩ := hgood
    exact roundtrip_cron accept m hacc hy hmo hd hw hdw hh hmi hs h1 h2 h3

/-- An interval trigger with an int field and a spaced date string. -/
def exIntervalT : Trigger :=
  .interval { minutes := some 5, start_date := some "2024-01-03 10:00" }

/-- Witness for the amended C5 at a concrete interval trigger with a
permissive constructor model. -/
theorem C5_witness :
    text2Trigger (fun _ => true) (trigger2Text exIntervalT) =
      some exIntervalT :=
  C5_roundtrip (fun _ => true) exIntervalT rfl (by decide)

end Fletchck
